import Mathlib

/-!
Verification of the markup generator in `src/stateToHTML.js`
(draft-js-export-html).  The source is embedded shallowly: JS strings are
`List Char`, JS objects used as string maps are association lists with
JS assignment semantics (`objSet`), and the stateful `MarkupGenerator`
class is state passing over `GenState` with a fuel argument standing for
the (always terminating) cursor loop.
-/

namespace StateToHTML

/-- Character list of a string literal (JS strings are modelled as `List Char`). -/
def S (s : String) : List Char := s.data

/-- The non-breaking-space sentinel character `\xA0` used by the source. -/
def nbspChar : Char := '\u00A0'

/-- `INLINE_STYLE.BOLD` from draft-js-utils. -/
def BOLD : String := "BOLD"

/-- `INLINE_STYLE.CODE` from draft-js-utils. -/
def CODE : String := "CODE"

/-- `INLINE_STYLE.ITALIC` from draft-js-utils. -/
def ITALIC : String := "ITALIC"

/-- `INLINE_STYLE.STRIKETHROUGH` from draft-js-utils. -/
def STRIKETHROUGH : String := "STRIKETHROUGH"

/-- `INLINE_STYLE.UNDERLINE` from draft-js-utils. -/
def UNDERLINE : String := "UNDERLINE"

def BLOCK_TYPE.HEADER_ONE : String := "header-one"

def BLOCK_TYPE.HEADER_TWO : String := "header-two"

def BLOCK_TYPE.HEADER_THREE : String := "header-three"

def BLOCK_TYPE.HEADER_FOUR : String := "header-four"

def BLOCK_TYPE.HEADER_FIVE : String := "header-five"

def BLOCK_TYPE.HEADER_SIX : String := "header-six"

def BLOCK_TYPE.UNORDERED_LIST_ITEM : String := "unordered-list-item"

def BLOCK_TYPE.ORDERED_LIST_ITEM : String := "ordered-list-item"

def BLOCK_TYPE.CHECKABLE_LIST_ITEM : String := "checkable-list-item"

def BLOCK_TYPE.BLOCKQUOTE : String := "blockquote"

def BLOCK_TYPE.CODE : String := "code-block"

def BLOCK_TYPE.ATOMIC : String := "atomic"

def ENTITY_TYPE.LINK : String := "LINK"

def ENTITY_TYPE.IMAGE : String := "IMAGE"

/-- `const INDENT = '  '`. -/
def INDENT : List Char := S "  "

/-- `const BREAK = '<br/>'`. -/
def BREAK : List Char := S "<br/>"

/-- A draft-js style set; `style.has(label)` is `List.contains`. -/
abbrev StyleSet := List String

/-- A draft-js content block, as consumed by the generator
(`key()`, `type()`, `depth()`, `text()` and the per-character
(style set, entity key) metadata of `getCharacterList()`). -/
structure ContentBlock where
  key : String
  type : String
  depth : Nat
  text : List Char
  charList : List (StyleSet × Option String)

/-- A draft-js entity instance: `getType()` and `getData()`;
a data value is a string or `null`. -/
structure EntityInstance where
  type : String
  data : List (String × Option (List Char))

/-- JS object property update: overwrite in place if the key exists,
append otherwise. -/
def objSet {α : Type} (o : List (String × α)) (k : String) (v : α) :
    List (String × α) :=
  if o.any (fun kv => kv.1 == k) then
    o.map (fun kv => if kv.1 == k then (k, v) else kv)
  else o ++ [(k, v)]

/-- JS object property read: `some val` if the key is present, `none`
(JS `undefined`) otherwise. -/
def lookup {α : Type} (o : List (String × α)) (k : String) : Option α :=
  (o.find? (fun kv => kv.1 == k)).map (fun kv => kv.2)

/-- `ENTITY_ATTR_MAP`: per entity type, the map from entity data keys to
element attribute names. -/
def ENTITY_ATTR_MAP : List (String × List (String × String)) :=
  [ (ENTITY_TYPE.LINK,
      [("url", "href"), ("rel", "rel"), ("target", "target"), ("title", "title")]),
    (ENTITY_TYPE.IMAGE,
      [("src", "src"), ("alt", "alt"), ("data-original-url", "href")]) ]

/-- `COLOR_STYLE_MAP`: legacy colour/background style labels, each mapping
to a single CSS property/value pair. -/
def COLOR_STYLE_MAP : List (String × List (String × String)) :=
  [ ("TEXT_DEFAULT", [("color", "#878787")]),
    ("TEXT_WHITE", [("color", "#fff")]),
    ("TEXT_BLACK", [("color", "#000")]),
    ("TEXT_RED", [("color", "rgb(255, 0, 0)")]),
    ("TEXT_ORANGE", [("color", "rgb(255, 127, 0)")]),
    ("TEXT_YELLOW", [("color", "rgb(180, 180, 0)")]),
    ("TEXT_GREEN", [("color", "rgb(0, 180, 0)")]),
    ("TEXT_BLUE", [("color", "rgb(0, 0, 255)")]),
    ("TEXT_INDIGO", [("color", "rgb(75, 0, 130)")]),
    ("TEXT_VIOLET", [("color", "rgb(127, 0, 255)")]),
    ("BACKGROUND_DEFAULT", [("backgroundColor", "#fff")]),
    ("BACKGROUND_BLACK", [("backgroundColor", "#000")]),
    ("BACKGROUND_RED", [("backgroundColor", "rgb(255, 0, 0)")]),
    ("BACKGROUND_ORANGE", [("backgroundColor", "rgb(255, 127, 0)")]),
    ("BACKGROUND_YELLOW", [("backgroundColor", "rgb(180, 180, 0)")]),
    ("BACKGROUND_GREEN", [("backgroundColor", "rgb(0, 180, 0)")]),
    ("BACKGROUND_BLUE", [("backgroundColor", "rgb(0, 0, 255)")]),
    ("BACKGROUND_INDIGO", [("backgroundColor", "rgb(75, 0, 130)")]),
    ("BACKGROUND_VIOLET", [("backgroundColor", "rgb(127, 0, 255)")]) ]

/-- `dataToAttr`: map the entity's data fields through the per-type
attribute table, keeping even `null` values (they are filtered later by
`stringifyAttrs`); unmapped fields contribute nothing. -/
def dataToAttr (entityType : String) (entity : EntityInstance) :
    List (String × Option (List Char)) :=
  let attrMap := (lookup ENTITY_ATTR_MAP entityType).getD []
  entity.data.foldl
    (fun attrs kv =>
      match lookup attrMap kv.1 with
      | some attrKey => objSet attrs attrKey kv.2
      | none => attrs)
    []

/-- First regex pass of `decamelize`:
`replace(/([a-z\d])([A-Z])/g, '$1' + sep + '$2')`. -/
def decamelPassOne (sep : List Char) : List Char → List Char
  | [] => []
  | [c] => [c]
  | a :: b :: rest =>
    if (a.isLower || a.isDigit) && b.isUpper then
      a :: (sep ++ (b :: decamelPassOne sep rest))
    else
      a :: decamelPassOne sep (b :: rest)

def lowerOrDigit (c : Char) : Bool := c.isLower || c.isDigit

/-- Second regex pass of `decamelize`:
`replace(/([A-Z]+)([A-Z][a-z\d]+)/g, '$1' + sep + '$2')`, as a left-to-right
scan with the regex's greedy semantics; the fuel argument bounds the scan
(the input length always suffices, every step consumes at least one
character). -/
def decamelPassTwo (sep : List Char) : Nat → List Char → List Char
  | 0, l => l
  | _ + 1, [] => []
  | fuel + 1, c :: rest =>
    let us := (c :: rest).takeWhile Char.isUpper
    let r1 := (c :: rest).dropWhile Char.isUpper
    if 2 ≤ us.length &&
        (match r1 with | d :: _ => lowerOrDigit d | [] => false) then
      us.dropLast ++ sep ++
        (match us.getLast? with | some x => [x] | none => []) ++
        r1.takeWhile lowerOrDigit ++
        decamelPassTwo sep fuel (r1.dropWhile lowerOrDigit)
    else
      c :: decamelPassTwo sep fuel rest

/-- `decamelize(str, sep)`: the two regex passes followed by
`toLowerCase()`. -/
def decamelize (str : List Char) (sep : List Char) : List Char :=
  (decamelPassTwo sep (decamelPassOne sep str).length
      (decamelPassOne sep str)).map Char.toLower

/-- `getTags(blockType)`: the element tag(s) wrapping one block. -/
def getTags (blockType : String) : List String :=
  if blockType = BLOCK_TYPE.HEADER_ONE then ["h1"]
  else if blockType = BLOCK_TYPE.HEADER_TWO then ["h2"]
  else if blockType = BLOCK_TYPE.HEADER_THREE then ["h3"]
  else if blockType = BLOCK_TYPE.HEADER_FOUR then ["h4"]
  else if blockType = BLOCK_TYPE.HEADER_FIVE then ["h5"]
  else if blockType = BLOCK_TYPE.HEADER_SIX then ["h6"]
  else if blockType = BLOCK_TYPE.UNORDERED_LIST_ITEM ∨
          blockType = BLOCK_TYPE.ORDERED_LIST_ITEM ∨
          blockType = BLOCK_TYPE.CHECKABLE_LIST_ITEM then ["li"]
  else if blockType = BLOCK_TYPE.BLOCKQUOTE then ["blockquote"]
  else if blockType = BLOCK_TYPE.CODE then ["pre", "code"]
  else if blockType = BLOCK_TYPE.ATOMIC then ["figure"]
  else ["div"]

/-- `getWrapperTag(blockType)`: the list container required around the
block, if any. -/
def getWrapperTag (blockType : String) : Option String :=
  if blockType = BLOCK_TYPE.UNORDERED_LIST_ITEM ∨
     blockType = BLOCK_TYPE.CHECKABLE_LIST_ITEM then some "ul"
  else if blockType = BLOCK_TYPE.ORDERED_LIST_ITEM then some "ol"
  else none

/-- `canHaveDepth(blockType)`. -/
def canHaveDepth (blockType : String) : Bool :=
  blockType == BLOCK_TYPE.UNORDERED_LIST_ITEM ||
  blockType == BLOCK_TYPE.ORDERED_LIST_ITEM ||
  blockType == BLOCK_TYPE.CHECKABLE_LIST_ITEM

/-- `text.split(c).join(r)` for a single-character separator: replace each
occurrence of `c` by `r`. -/
def replaceChar (c : Char) (r : List Char) : List Char → List Char
  | [] => []
  | x :: t => (if x = c then r else [x]) ++ replaceChar c r t

/-- `encodeContent(text)`: the five sequential split/join substitutions. -/
def encodeContent (text : List Char) : List Char :=
  replaceChar '\n' (BREAK ++ S "\n")
    (replaceChar nbspChar (S "&nbsp;")
      (replaceChar '>' (S "&gt;")
        (replaceChar '<' (S "&lt;")
          (replaceChar '&' (S "&amp;") text))))

/-- `encodeAttr(text)`: the four sequential split/join substitutions for
attribute values. -/
def encodeAttr (text : List Char) : List Char :=
  replaceChar '"' (S "&quot;")
    (replaceChar '>' (S "&gt;")
      (replaceChar '<' (S "&lt;")
        (replaceChar '&' (S "&amp;") text)))

/-- `stringifyAttrs(attrs)`: one ` key="value"` part per non-null
attribute, with the value escaped by `encodeAttr`, joined. -/
def stringifyAttrs (attrs : List (String × Option (List Char))) : List Char :=
  (attrs.foldl
    (fun parts kv =>
      kv.2.elim parts
        (fun v => parts ++ [S " " ++ S kv.1 ++ S "=\"" ++ encodeAttr v ++ S "\""]))
    []).flatten

/-- `preserveWhitespace(text)`: replace each space that is leading,
trailing, or preceded by another space with the sentinel `\xA0`. -/
def preserveWhitespace (text : List Char) : List Char :=
  (List.range text.length).map (fun i =>
    if text.getD i ' ' = ' ' ∧
        (i = 0 ∨ i = text.length - 1 ∨ text.getD (i - 1) ' ' = ' ') then
      nbspChar
    else text.getD i ' ')

/-- Group a list into maximal runs of consecutive elements sharing the
same projection value. -/
def chunkBy {α β : Type} [DecidableEq β] (f : α → β) : List α → List (β × List α)
  | [] => []
  | a :: rest =>
    match chunkBy f rest with
    | [] => [(f a, [a])]
    | (b, g) :: more =>
      if f a = b then (b, a :: g) :: more
      else (f a, [a]) :: (b, g) :: more

/-- Modelled from the spec: `getEntityRanges(text, charMetaList)` is
imported from draft-js-utils and is not part of this repository's sources.
Per the spec, runs are grouped first by entity key (a run of consecutive
characters sharing the same entity reference, which may be "no entity"),
then each entity group is subdivided into maximal sub-runs of identical
style set. -/
def getEntityRanges (text : List Char)
    (charList : List (StyleSet × Option String)) :
    List (Option String × List (List Char × StyleSet)) :=
  (chunkBy (fun p => p.2.2) (text.zip charList)).map
    (fun g => (g.1,
      (chunkBy (fun p => p.2.1) g.2).map
        (fun h => (h.2.map (fun p => p.1), h.1))))

/-- The generator's per-call context: the block array, the external
checked-state map, and the (external, read-only) entity registry. -/
structure GenCtx where
  blocks : List ContentBlock
  checkedStateMap : String → Bool
  entityMap : List (String × EntityInstance)

/-- The legacy-label span step of the style sub-run rendering: if any
`COLOR_STYLE_MAP` label is active, merge the matched labels' CSS
properties (later labels overriding earlier ones) into a single inline
`style` attribute on a wrapping span. -/
def applyLegacySpan (style : StyleSet) (content : List Char) : List Char :=
  let includedLabels :=
    (COLOR_STYLE_MAP.map (fun kv => kv.1)).filter (fun label => style.contains label)
  if includedLabels.length > 0 then
    let styles := includedLabels.foldl
      (fun result label =>
        ((lookup COLOR_STYLE_MAP label).getD []).foldl
          (fun r pv => objSet r pv.1 pv.2) result)
      ([] : List (String × String))
    let stringifyStyles := List.intercalate (S " ")
      (styles.map (fun pv => decamelize (S pv.1) (S "-") ++ S ": " ++ S pv.2 ++ S ";"))
    S "<span style=\"" ++ stringifyStyles ++ S "\">" ++ content ++ S "</span>"
  else content

/-- `if (style.has(BOLD)) content = <strong>content</strong>`. -/
def applyBold (style : StyleSet) (content : List Char) : List Char :=
  if style.contains BOLD then S "<strong>" ++ content ++ S "</strong>" else content

/-- `if (style.has(UNDERLINE)) content = <ins>content</ins>`. -/
def applyUnderline (style : StyleSet) (content : List Char) : List Char :=
  if style.contains UNDERLINE then S "<ins>" ++ content ++ S "</ins>" else content

/-- `if (style.has(ITALIC)) content = <em>content</em>`. -/
def applyItalic (style : StyleSet) (content : List Char) : List Char :=
  if style.contains ITALIC then S "<em>" ++ content ++ S "</em>" else content

/-- `if (style.has(STRIKETHROUGH)) content = <del>content</del>`. -/
def applyStrikethrough (style : StyleSet) (content : List Char) : List Char :=
  if style.contains STRIKETHROUGH then S "<del>" ++ content ++ S "</del>" else content

/-- The inline-code step: wrap in `<code>` unless the whole block is
already a code block. -/
def applyCode (blockType : String) (style : StyleSet) (content : List Char) :
    List Char :=
  if style.contains CODE then
    if blockType = BLOCK_TYPE.CODE then content else S "<code>" ++ content ++ S "</code>"
  else content

/-- The checkable-list-item step: prefix the content with a checkbox
input whose `checked` attribute reflects the external checked-state map. -/
def applyCheckbox (checkedStateMap : String → Bool) (blockType blockKey : String)
    (content : List Char) : List Char :=
  if blockType = BLOCK_TYPE.CHECKABLE_LIST_ITEM then
    S "<input type=\"checkbox\" " ++
      (if checkedStateMap blockKey then S "checked " else []) ++ S "/>" ++ content
  else content

/-- Rendering of one style sub-run: the body of the inner
`stylePieces.map` callback of `renderBlockContent` — the source's
sequential reassignments of `content`, applied in order (the tag steps
are reverse alphabetical by tag name, as in the source). -/
def renderStylePiece (checkedStateMap : String → Bool)
    (blockType blockKey : String) (text : List Char) (style : StyleSet) :
    List Char :=
  applyCheckbox checkedStateMap blockType blockKey
    (applyCode blockType style
      (applyStrikethrough style
        (applyItalic style
          (applyUnderline style
            (applyBold style
              (applyLegacySpan style (encodeContent text)))))))

/-- JS template interpolation of a property read: an absent property
prints as `undefined`, a `null` value as `null`. -/
def jsStr : Option (Option (List Char)) → List Char
  | none => S "undefined"
  | some none => S "null"
  | some (some v) => v

/-- Rendering of one entity range: the body of the `entityPieces.map`
callback of `renderBlockContent`.  Note that in the IMAGE branch the
source computes `stringifyAttrs(attrs)` but does not use it: the
`href`/`src`/`alt` values are interpolated raw into the template string. -/
def renderEntityPiece (ctx : GenCtx) (blockType blockKey : String)
    (piece : Option String × List (List Char × StyleSet)) : List Char :=
  let content :=
    (piece.2.map (fun sp =>
      renderStylePiece ctx.checkedStateMap blockType blockKey sp.1 sp.2)).flatten
  let entity : Option EntityInstance := piece.1.bind (fun k => lookup ctx.entityMap k)
  match entity with
  | none => content
  | some e =>
    if e.type = ENTITY_TYPE.LINK then
      let attrs := dataToAttr e.type e
      let strAttrs := stringifyAttrs attrs
      S "<a" ++ strAttrs ++ S ">" ++ content ++ S "</a>"
    else if e.type = ENTITY_TYPE.IMAGE then
      let attrs := dataToAttr e.type e
      S "<a href=\"" ++ jsStr (lookup attrs "href") ++ S "\"><img src=\"" ++
        jsStr (lookup attrs "src") ++ S "\" alt=\"" ++
        jsStr (lookup attrs "alt") ++ S "\" /></a>"
    else content

/-- `renderBlockContent(block)`. -/
def renderBlockContent (ctx : GenCtx) (block : ContentBlock) : List Char :=
  if block.text = [] then
    -- Prevent element collapse if completely empty.
    BREAK
  else
    let text := preserveWhitespace block.text
    let entityPieces := getEntityRanges text block.charList
    (entityPieces.map (renderEntityPiece ctx block.type block.key)).flatten

/-- The mutable traversal state of `MarkupGenerator` during one
`generate()` call: the output buffer (a list of pushed string fragments),
the cursor, the indent level and the currently open wrapper tag. -/
structure GenState where
  output : List (List Char)
  currentBlock : Nat
  indentLevel : Nat
  wrapperTag : Option String
deriving DecidableEq

/-- `this.output.push(fragment)`. -/
def push (s : GenState) (f : List Char) : GenState :=
  { s with output := s.output ++ [f] }

/-- `INDENT.repeat(indentLevel)`. -/
def indentFrag (n : Nat) : List Char := (List.replicate n INDENT).flatten

/-- `this.indent()`. -/
def pushIndent (s : GenState) : GenState := push s (indentFrag s.indentLevel)

/-- The single fragment pushed when a wrapper tag is opened. -/
def openFrag (t : String) : List Char := S "<" ++ S t ++ S ">\n"

/-- The single fragment pushed when a wrapper tag is closed. -/
def closeFrag (t : String) : List Char := S "</" ++ S t ++ S ">\n"

/-- `openWrapperTag(wrapperTag)`. -/
def openWrapperTag (t : String) (s : GenState) : GenState :=
  let s := { s with wrapperTag := some t }
  let s := pushIndent s
  let s := push s (openFrag t)
  { s with indentLevel := s.indentLevel + 1 }

/-- `closeWrapperTag()`. -/
def closeWrapperTag (s : GenState) : GenState :=
  match s.wrapperTag with
  | none => s
  | some t =>
    let s := { s with indentLevel := s.indentLevel - 1 }
    let s := pushIndent s
    let s := push s (closeFrag t)
    { s with wrapperTag := none }

/-- `writeStartTag(blockType)`. -/
def writeStartTag (blockType : String) (s : GenState) : GenState :=
  (getTags blockType).foldl (fun s tag => push s (S "<" ++ S tag ++ S ">")) s

/-- `writeEndTag(blockType)`: one tag closes directly; several tags close
in reverse order, joined into a single pushed fragment. -/
def writeEndTag (blockType : String) (s : GenState) : GenState :=
  let tags := getTags blockType
  if tags.length = 1 then
    push s (S "</" ++ S (tags.headD "") ++ S ">\n")
  else
    push s (((tags.map (fun tag => S "</" ++ S tag ++ S ">")).reverse).flatten ++ S "\n")

/-- The wrapper-adjustment step at the top of `processBlock`: if the
required wrapper differs from the currently open one, close the open
wrapper (if any) and then open the new one (if any). -/
def wrapperAdjust (newWrapperTag : Option String) (s : GenState) : GenState :=
  if s.wrapperTag ≠ newWrapperTag then
    let s := if s.wrapperTag.isSome then closeWrapperTag s else s
    match newWrapperTag with
    | some t => openWrapperTag t s
    | none => s
  else s

/-- The fragments `closeWrapperTag` pushes from state `s` (empty when no
wrapper is open). -/
def closeWrapperFrags (s : GenState) : List (List Char) :=
  match s.wrapperTag with
  | none => []
  | some w => [indentFrag (s.indentLevel - 1), closeFrag w]

/-- The fragments opening the new wrapper pushes during the
wrapper-adjustment step (empty when no new wrapper is required). -/
def openWrapperFrags (newWrapperTag : Option String) (s : GenState) :
    List (List Char) :=
  match newWrapperTag with
  | none => []
  | some u =>
    [indentFrag (if s.wrapperTag.isSome then s.indentLevel - 1 else s.indentLevel),
     openFrag u]

mutual

/-- `processBlock()`.  The fuel argument stands for the recursion and
loop structure of the source (which always terminates because the cursor
strictly increases); `generate` supplies ample fuel.  A missing block at
the cursor cannot happen on the paths reachable from `generate`. -/
def processBlock (ctx : GenCtx) (fuel : Nat) (s : GenState) : GenState :=
  if fuel = 0 then s
  else
    match ctx.blocks[s.currentBlock]? with
    | none => s
    | some block =>
      let blockType := block.type
      let s := wrapperAdjust (getWrapperTag blockType) s
      let s := pushIndent s
      let s := writeStartTag blockType s
      let s := push s (renderBlockContent ctx block)
      -- Look ahead and see if we will nest list.
      match ctx.blocks[s.currentBlock + 1]? with
      | some nextBlock =>
        if canHaveDepth blockType && (nextBlock.depth == block.depth + 1) then
          let s := push s (S "\n")
          -- Temporarily stash the current wrapperTag and render child list(s).
          let thisWrapperTag := s.wrapperTag
          let s := { s with wrapperTag := none,
                            indentLevel := s.indentLevel + 1,
                            currentBlock := s.currentBlock + 1 }
          let s := processBlocksAtDepth ctx nextBlock.depth (fuel - 1) s
          let s := { s with wrapperTag := thisWrapperTag,
                            indentLevel := s.indentLevel - 1 }
          let s := pushIndent s
          writeEndTag blockType s
        else
          writeEndTag blockType { s with currentBlock := s.currentBlock + 1 }
      | none =>
        writeEndTag blockType { s with currentBlock := s.currentBlock + 1 }
termination_by fuel
decreasing_by omega

/-- `processBlocksAtDepth(depth)`: process blocks while they sit at the
given depth, then close any wrapper opened in this nested scope.  Fuel
exhaustion behaves like the loop condition turning false (the source
always runs `closeWrapperTag` after the loop). -/
def processBlocksAtDepth (ctx : GenCtx) (depth : Nat) (fuel : Nat)
    (s : GenState) : GenState :=
  if fuel = 0 then closeWrapperTag s
  else
    match ctx.blocks[s.currentBlock]? with
    | some block =>
      if block.depth = depth then
        processBlocksAtDepth ctx depth (fuel - 1) (processBlock ctx (fuel - 1) s)
      else closeWrapperTag s
    | none => closeWrapperTag s
termination_by fuel
decreasing_by all_goals omega

end

/-- The `while` loop of `generate()`. -/
def generateLoop (ctx : GenCtx) (fuel : Nat) (s : GenState) : GenState :=
  if fuel = 0 then s
  else
    if s.currentBlock < ctx.blocks.length then
      generateLoop ctx (fuel - 1) (processBlock ctx (fuel - 1) s)
    else s
termination_by fuel
decreasing_by omega

/-- JS whitespace as removed by `String.prototype.trim`. -/
def isJsSpace (c : Char) : Bool :=
  c == ' ' || c == '\t' || c == '\n' || c == '\r' ||
  c == Char.ofNat 11 || c == Char.ofNat 12 || c == nbspChar ||
  c == Char.ofNat 0xFEFF

/-- `str.trim()`. -/
def trimChars (l : List Char) : List Char :=
  ((l.dropWhile isJsSpace).reverse.dropWhile isJsSpace).reverse

/-- The traversal state at the end of `generate()`, after the block loop
and the final `closeWrapperTag()`, just before the output is joined. -/
def genFinalState (ctx : GenCtx) : GenState :=
  closeWrapperTag
    (generateLoop ctx (4 * ctx.blocks.length + 4)
      { output := [], currentBlock := 0, indentLevel := 0, wrapperTag := none })

/-- `generate()`: run the loop, close any open wrapper, join and trim. -/
def generate (ctx : GenCtx) : List Char :=
  trimChars (genFinalState ctx).output.flatten

/-- `stateToHTML(content, checkedStateMap)`. -/
def stateToHTML (ctx : GenCtx) : List Char := generate ctx

/-- Modelled from the spec: an HTML entity decoder is not part of this
repository's sources; the spec's round-trip property speaks of "decoding
the output's entities".  This decoder inverts exactly the substitutions of
`encodeContent`: the line-break placeholder plus newline back to a
newline, then the four named entities back to their characters. -/
def decodeContent (l : List Char) : List Char :=
  match l with
  | [] => []
  | c :: rest =>
    if (S "<br/>\n").isPrefixOf (c :: rest) then
      '\n' :: decodeContent ((c :: rest).drop 6)
    else if (S "&nbsp;").isPrefixOf (c :: rest) then
      nbspChar :: decodeContent ((c :: rest).drop 6)
    else if (S "&gt;").isPrefixOf (c :: rest) then
      '>' :: decodeContent ((c :: rest).drop 4)
    else if (S "&lt;").isPrefixOf (c :: rest) then
      '<' :: decodeContent ((c :: rest).drop 4)
    else if (S "&amp;").isPrefixOf (c :: rest) then
      '&' :: decodeContent ((c :: rest).drop 5)
    else
      c :: decodeContent rest
termination_by l.length
decreasing_by
  all_goals simp [List.length_drop]
  all_goals omega

/-- The expansion of one character under `encodeContent` (the sequential
split/join substitutions never touch a character introduced by a later
substitution, so `encodeContent` acts characterwise). -/
def encChar (c : Char) : List Char :=
  if c = '&' then S "&amp;"
  else if c = '<' then S "&lt;"
  else if c = '>' then S "&gt;"
  else if c = nbspChar then S "&nbsp;"
  else if c = '\n' then BREAK ++ S "\n"
  else [c]

/-- The expansion of one character under `encodeAttr`. -/
def attrChar (c : Char) : List Char :=
  if c = '&' then S "&amp;"
  else if c = '<' then S "&lt;"
  else if c = '>' then S "&gt;"
  else if c = '"' then S "&quot;"
  else [c]

/-- Number of output fragments exactly equal to `a`. -/
def fragCount (a : List Char) (out : List (List Char)) : Nat :=
  out.countP (fun f => decide (f = a))

/-- Net number of wrapper openings of tag `t` in the output buffer:
fragments opening `<t>` minus fragments closing `</t>`. -/
def netOpen (t : String) (out : List (List Char)) : Int :=
  (fragCount (openFrag t) out : Int) - (fragCount (closeFrag t) out : Int)

/-- `if w = some t then 1 else 0`: whether wrapper `t` is recorded open. -/
def wrapInd (t : String) (w : Option String) : Int :=
  if w = some t then 1 else 0

/-! ### Characterisation of the encoders -/

lemma replaceChar_append (c : Char) (r : List Char) (a b : List Char) :
    replaceChar c r (a ++ b) = replaceChar c r a ++ replaceChar c r b := by
  induction a with
  | nil => simp [replaceChar]
  | cons x t ih => simp [replaceChar, ih]

lemma encodeContent_append (a b : List Char) :
    encodeContent (a ++ b) = encodeContent a ++ encodeContent b := by
  simp [encodeContent, replaceChar_append]

lemma encodeAttr_append (a b : List Char) :
    encodeAttr (a ++ b) = encodeAttr a ++ encodeAttr b := by
  simp [encodeAttr, replaceChar_append]

lemma encodeContent_singleton (c : Char) : encodeContent [c] = encChar c := by
  by_cases h1 : c = '&'
  · subst h1; rfl
  · by_cases h2 : c = '<'
    · subst h2; rfl
    · by_cases h3 : c = '>'
      · subst h3; rfl
      · by_cases h4 : c = nbspChar
        · subst h4; rfl
        · by_cases h5 : c = '\n'
          · subst h5; rfl
          · simp [encodeContent, encChar, replaceChar, h1, h2, h3, h4, h5]

lemma encodeAttr_singleton (c : Char) : encodeAttr [c] = attrChar c := by
  by_cases h1 : c = '&'
  · subst h1; rfl
  · by_cases h2 : c = '<'
    · subst h2; rfl
    · by_cases h3 : c = '>'
      · subst h3; rfl
      · by_cases h4 : c = '"'
        · subst h4; rfl
        · simp [encodeAttr, attrChar, replaceChar, h1, h2, h3, h4]

lemma encodeContent_cons (c : Char) (t : List Char) :
    encodeContent (c :: t) = encChar c ++ encodeContent t := by
  have h : c :: t = [c] ++ t := rfl
  rw [h, encodeContent_append, encodeContent_singleton]

lemma encodeAttr_cons (c : Char) (t : List Char) :
    encodeAttr (c :: t) = attrChar c ++ encodeAttr t := by
  have h : c :: t = [c] ++ t := rfl
  rw [h, encodeAttr_append, encodeAttr_singleton]

lemma encodeContent_eq_flatten_map (text : List Char) :
    encodeContent text = (text.map encChar).flatten := by
  induction text with
  | nil => rfl
  | cons c t ih => rw [encodeContent_cons, ih]; rfl

lemma encodeAttr_eq_flatten_map (text : List Char) :
    encodeAttr text = (text.map attrChar).flatten := by
  induction text with
  | nil => rfl
  | cons c t ih => rw [encodeAttr_cons, ih]; rfl

/-! ### The decoder undoes the encoder -/

lemma decodeContent_br (x : List Char) :
    decodeContent (S "<br/>\n" ++ x) = '\n' :: decodeContent x := by
  have h : S "<br/>\n" ++ x = '<' :: 'b' :: 'r' :: '/' :: '>' :: '\n' :: x := rfl
  rw [h, decodeContent]
  simp [S, List.isPrefixOf]

lemma decodeContent_nbsp (x : List Char) :
    decodeContent (S "&nbsp;" ++ x) = nbspChar :: decodeContent x := by
  have h : S "&nbsp;" ++ x = '&' :: 'n' :: 'b' :: 's' :: 'p' :: ';' :: x := rfl
  rw [h, decodeContent]
  simp [S, List.isPrefixOf]

lemma decodeContent_gt (x : List Char) :
    decodeContent (S "&gt;" ++ x) = '>' :: decodeContent x := by
  have h : S "&gt;" ++ x = '&' :: 'g' :: 't' :: ';' :: x := rfl
  rw [h, decodeContent]
  simp [S, List.isPrefixOf]

lemma decodeContent_lt (x : List Char) :
    decodeContent (S "&lt;" ++ x) = '<' :: decodeContent x := by
  have h : S "&lt;" ++ x = '&' :: 'l' :: 't' :: ';' :: x := rfl
  rw [h, decodeContent]
  simp [S, List.isPrefixOf]

lemma decodeContent_amp (x : List Char) :
    decodeContent (S "&amp;" ++ x) = '&' :: decodeContent x := by
  have h : S "&amp;" ++ x = '&' :: 'a' :: 'm' :: 'p' :: ';' :: x := rfl
  rw [h, decodeContent]
  simp [S, List.isPrefixOf]

lemma decodeContent_plain (c : Char) (x : List Char)
    (h1 : c ≠ '&') (h2 : c ≠ '<') :
    decodeContent (c :: x) = c :: decodeContent x := by
  rw [decodeContent]
  simp [S, List.isPrefixOf, h1, h2, Ne.symm h1, Ne.symm h2]

lemma decode_encode (text : List Char) :
    decodeContent (encodeContent text) = text := by
  induction text with
  | nil => rw [show encodeContent [] = [] from rfl, decodeContent]
  | cons c t ih =>
    rw [encodeContent_cons]
    by_cases h1 : c = '&'
    · subst h1
      rw [show encChar '&' = S "&amp;" from rfl, decodeContent_amp, ih]
    · by_cases h2 : c = '<'
      · subst h2
        rw [show encChar '<' = S "&lt;" from rfl, decodeContent_lt, ih]
      · by_cases h3 : c = '>'
        · subst h3
          rw [show encChar '>' = S "&gt;" from rfl, decodeContent_gt, ih]
        · by_cases h4 : c = nbspChar
          · subst h4
            rw [show encChar nbspChar = S "&nbsp;" from rfl, decodeContent_nbsp, ih]
          · by_cases h5 : c = '\n'
            · subst h5
              rw [show encChar '\n' = S "<br/>\n" from rfl, decodeContent_br, ih]
            · rw [show encChar c = [c] by simp [encChar, h1, h2, h3, h4, h5]]
              rw [show [c] ++ encodeContent t = c :: encodeContent t from rfl]
              rw [decodeContent_plain c _ h1 h2, ih]

/-- C3: the content encoder substitutes each occurrence of a character
independently and exactly once — `encodeContent` is the characterwise map
sending `&`, `<`, `>` to their named entities (and the sentinel to
`&nbsp;`, a newline to the break placeholder) and leaving every other
character alone — and decoding the entities of the encoded result
recovers the input text exactly; in particular this holds for the
whitespace-preserved text of a block, i.e. the original text is recovered
modulo the non-breaking-space sentinel substitution. -/
theorem c3_encode_roundtrip :
    (∀ text : List Char, encodeContent text = (text.map encChar).flatten) ∧
    encChar '&' = S "&amp;" ∧ encChar '<' = S "&lt;" ∧ encChar '>' = S "&gt;" ∧
    encChar nbspChar = S "&nbsp;" ∧ encChar '\n' = BREAK ++ S "\n" ∧
    (∀ text : List Char, decodeContent (encodeContent text) = text) ∧
    (∀ text : List Char,
      decodeContent (encodeContent (preserveWhitespace text)) =
        preserveWhitespace text) :=
  ⟨encodeContent_eq_flatten_map, rfl, rfl, rfl, rfl, rfl, decode_encode,
    fun text => decode_encode (preserveWhitespace text)⟩

/-! ### Whitespace preservation -/

/-- C4: `preserveWhitespace` keeps the length of the text and replaces
the character at position `i` by the non-breaking-space sentinel exactly
when it is a space that is leading (`i = 0`), trailing
(`i = length - 1`), or immediately preceded by another space; every other
character is left unchanged.  Moreover this happens once per block,
before run-splitting: for nonempty text, `renderBlockContent` computes
its entity/style runs from the whitespace-preserved text. -/
theorem c4_preserve_whitespace :
    (∀ (text : List Char) (i : Nat), i < text.length →
      (preserveWhitespace text).length = text.length ∧
      (preserveWhitespace text).getD i ' ' =
        (if text.getD i ' ' = ' ' ∧
            (i = 0 ∨ i = text.length - 1 ∨ text.getD (i - 1) ' ' = ' ') then
          nbspChar
        else text.getD i ' ')) ∧
    (∀ (ctx : GenCtx) (block : ContentBlock), block.text ≠ [] →
      renderBlockContent ctx block =
        ((getEntityRanges (preserveWhitespace block.text) block.charList).map
          (renderEntityPiece ctx block.type block.key)).flatten) := by
  constructor
  · intro text i hi
    constructor
    · simp [preserveWhitespace]
    · simp [preserveWhitespace, List.getD_eq_getElem?_getD, List.getElem?_map,
        List.getElem?_range, hi]
  · intro ctx block h
    simp [renderBlockContent, h]

def witBlock : ContentBlock :=
  ⟨"w", "unstyled", 0, S "a b", (S "a b").map (fun _ => ([], none))⟩

def witCtx : GenCtx := ⟨[witBlock], fun _ => false, []⟩

/-- Witness for C4 at concrete inputs: in `"  a"` the space at index 1 is
preceded by a space and becomes the sentinel, and a concrete nonempty
block renders from its whitespace-preserved text. -/
theorem c4_preserve_whitespace_witness :
    (preserveWhitespace (S "  a")).getD 1 ' ' = nbspChar ∧
    renderBlockContent witCtx witBlock =
      ((getEntityRanges (preserveWhitespace witBlock.text) witBlock.charList).map
        (renderEntityPiece witCtx witBlock.type witBlock.key)).flatten := by
  constructor
  · have h := (c4_preserve_whitespace.1 (S "  a") 1 (by decide)).2
    simpa using h
  · exact c4_preserve_whitespace.2 witCtx witBlock (by decide)

/-! ### Empty blocks and the empty document -/

/-- C7: a block with empty text renders its content as the line-break
placeholder `<br/>`, never as the empty string; and the empty document
(zero blocks) generates the empty string after trimming. -/
theorem c7_empty_block_break :
    (∀ (ctx : GenCtx) (block : ContentBlock), block.text = [] →
      renderBlockContent ctx block = BREAK) ∧
    (∀ (m : String → Bool) (em : List (String × EntityInstance)),
      generate ⟨[], m, em⟩ = []) := by
  constructor
  · intro ctx block h
    simp [renderBlockContent, h]
  · intro m em
    simp [generate, genFinalState, generateLoop, closeWrapperTag, trimChars]

/-- Witness for C7 at a concrete empty block and the empty document. -/
theorem c7_empty_block_break_witness :
    renderBlockContent ⟨[], fun _ => false, []⟩ ⟨"k", "unstyled", 0, [], []⟩ = BREAK ∧
    generate ⟨[], fun _ => false, []⟩ = [] :=
  ⟨c7_empty_block_break.1 _ _ rfl, c7_empty_block_break.2 _ _⟩

/-- Whether `pat` occurs as a contiguous substring of the list. -/
def hasSubstring (pat : List Char) : List Char → Bool
  | [] => pat.isPrefixOf []
  | c :: rest => pat.isPrefixOf (c :: rest) || hasSubstring pat rest

/-- C9: a block whose text is empty renders exactly the line-break
placeholder and nothing else — even a checkable-list-item block, with any
checked-state map (in particular one mapping its key to `true`), gets no
checkbox input element: the result is literally `<br/>`, which contains
no `<input`, no `<span` and no `<a `. -/
theorem c9_empty_checkable_no_checkbox :
    ∀ (ctx : GenCtx) (k : String) (d : Nat)
      (cl : List (StyleSet × Option String)),
      renderBlockContent ctx ⟨k, BLOCK_TYPE.CHECKABLE_LIST_ITEM, d, [], cl⟩ =
        S "<br/>" ∧
      hasSubstring (S "<input")
        (renderBlockContent ctx ⟨k, BLOCK_TYPE.CHECKABLE_LIST_ITEM, d, [], cl⟩)
        = false ∧
      hasSubstring (S "<span")
        (renderBlockContent ctx ⟨k, BLOCK_TYPE.CHECKABLE_LIST_ITEM, d, [], cl⟩)
        = false ∧
      hasSubstring (S "<a ")
        (renderBlockContent ctx ⟨k, BLOCK_TYPE.CHECKABLE_LIST_ITEM, d, [], cl⟩)
        = false := by
  intro ctx k d cl
  have h : renderBlockContent ctx ⟨k, BLOCK_TYPE.CHECKABLE_LIST_ITEM, d, [], cl⟩ =
      S "<br/>" := rfl
  refine ⟨h, ?_, ?_, ?_⟩ <;> rw [h] <;> decide

/-! ### Style nesting order (C1) -/

/-- C1 counterexample: a run with exactly BOLD, ITALIC and UNDERLINE
active does not render as `<ins><em><strong>x</strong></em></ins>` as the
claim states (the code produces `<em><ins><strong>x</strong></ins></em>`:
tags are applied innermost-first in the order strong, ins, em). -/
theorem c1_counterexample :
    renderStylePiece (fun _ => false) "unstyled" "k" ['x']
        [BOLD, ITALIC, UNDERLINE] ≠ S "<ins><em><strong>x</strong></em></ins>" := by
  decide

/-- C1 (amended): style decoration depends only on membership in the
style set — not on the order styles were added — and the decoration tags
nest in the fixed innermost-to-outermost order legacy-span, strong, ins,
em, del, code; in particular a run with BOLD, ITALIC and UNDERLINE all
active (no legacy labels, strikethrough and code absent, block not a
checkable list item) always renders as
`<em><ins><strong>E</strong></ins></em>` where `E` is the encoded run
text. -/
theorem c1_style_nesting :
    (∀ (m : String → Bool) (bt k : String) (text : List Char)
        (s1 s2 : StyleSet),
      (∀ l : String, s1.contains l = s2.contains l) →
      renderStylePiece m bt k text s1 = renderStylePiece m bt k text s2) ∧
    (∀ (m : String → Bool) (bt k : String) (text : List Char)
        (style : StyleSet),
      style.contains BOLD = true → style.contains ITALIC = true →
      style.contains UNDERLINE = true →
      style.contains STRIKETHROUGH = false → style.contains CODE = false →
      (∀ label ∈ COLOR_STYLE_MAP.map (fun kv => kv.1),
        style.contains label = false) →
      bt ≠ BLOCK_TYPE.CHECKABLE_LIST_ITEM →
      renderStylePiece m bt k text style =
        S "<em><ins><strong>" ++ encodeContent text ++ S "</strong></ins></em>") := by
  constructor
  · intro m bt k text s1 s2 h
    simp only [renderStylePiece, applyCheckbox, applyCode, applyStrikethrough,
      applyItalic, applyUnderline, applyBold, applyLegacySpan, h]
  · intro m bt k text style hB hI hU hS hC hLab hbt
    have hF : (COLOR_STYLE_MAP.map (fun kv => kv.1)).filter
        (fun label => style.contains label) = [] := by
      rw [List.filter_eq_nil_iff]
      intro a ha
      rw [hLab a ha]
      simp
    simp only [renderStylePiece, applyCheckbox, applyCode, applyStrikethrough,
      applyItalic, applyUnderline, applyBold, applyLegacySpan, hF, hB, hI, hU,
      hS, hC, if_neg hbt]
    simp only [List.length_nil, gt_iff_lt, Nat.lt_irrefl, if_false,
      Bool.false_eq_true, if_true, List.append_assoc]
    rfl

/-- Witness for C1 at concrete inputs: two orderings of the same three
styles render identically, and the BOLD+ITALIC+UNDERLINE run nests as
em, ins, strong. -/
theorem c1_style_nesting_witness :
    renderStylePiece (fun _ => false) "unstyled" "k" (S "hi")
        [ITALIC, UNDERLINE, BOLD] =
      renderStylePiece (fun _ => false) "unstyled" "k" (S "hi")
        [BOLD, ITALIC, UNDERLINE] ∧
    renderStylePiece (fun _ => false) "unstyled" "k" (S "hi")
        [ITALIC, UNDERLINE, BOLD] =
      S "<em><ins><strong>" ++ encodeContent (S "hi") ++ S "</strong></ins></em>" :=
  ⟨c1_style_nesting.1 _ _ _ _ _ _
    (by
      intro l
      simp only [List.contains, List.elem_eq_mem, decide_eq_decide, List.mem_cons]
      tauto),
   c1_style_nesting.2 _ _ _ _ _ (by decide) (by decide) (by decide) (by decide)
     (by decide) (by decide) (by decide)⟩

/-! ### Attribute stringification and entity data mapping -/

lemma foldl_opt_append {γ : Type} (g : String → γ → List Char)
    (d : List (String × Option γ)) (acc : List (List Char)) :
    d.foldl
      (fun parts kv => kv.2.elim parts (fun v => parts ++ [g kv.1 v]))
      acc
    = acc ++ d.filterMap (fun kv => kv.2.map (fun v => g kv.1 v)) := by
  induction d generalizing acc with
  | nil => simp
  | cons kv t ih =>
    rcases kv with ⟨k, ov⟩
    cases ov with
    | none => simp [ih]
    | some v => simp [ih]

lemma filterMap_opt_filter {γ : Type} (g : String → γ → List Char)
    (d : List (String × Option γ)) :
    d.filterMap (fun kv => kv.2.map (fun v => g kv.1 v))
    = (d.filter (fun kv => kv.2.isSome)).filterMap
        (fun kv => kv.2.map (fun v => g kv.1 v)) := by
  induction d with
  | nil => rfl
  | cons kv t ih =>
    rcases kv with ⟨k, ov⟩
    cases ov with
    | none => simpa using ih
    | some v => simpa using ih

/-- `stringifyAttrs` emits one ` key="encodeAttr value"` part for each
attribute with a non-null value, in order. -/
lemma stringifyAttrs_eq (attrs : List (String × Option (List Char))) :
    stringifyAttrs attrs
    = (attrs.filterMap (fun kv => kv.2.map (fun v =>
        S " " ++ S kv.1 ++ S "=\"" ++ encodeAttr v ++ S "\""))).flatten := by
  have h := foldl_opt_append
    (fun k v => S " " ++ S k ++ S "=\"" ++ encodeAttr v ++ S "\"") attrs []
  simp only [List.nil_append] at h
  rw [stringifyAttrs]
  exact congrArg List.flatten h

/-- Dropping the null-valued attributes does not change the rendered
attribute string. -/
lemma stringifyAttrs_filter (attrs : List (String × Option (List Char))) :
    stringifyAttrs attrs
    = stringifyAttrs (attrs.filter (fun kv => kv.2.isSome)) := by
  rw [stringifyAttrs_eq, stringifyAttrs_eq]
  exact congrArg List.flatten
    (filterMap_opt_filter
      (fun k v => S " " ++ S k ++ S "=\"" ++ encodeAttr v ++ S "\"") attrs)

lemma dataToAttr_foldl_filter (am : List (String × String))
    (d : List (String × Option (List Char)))
    (acc : List (String × Option (List Char))) :
    d.foldl
      (fun attrs kv =>
        match lookup am kv.1 with
        | some attrKey => objSet attrs attrKey kv.2
        | none => attrs)
      acc
    = (d.filter (fun kv => (lookup am kv.1).isSome)).foldl
        (fun attrs kv =>
          match lookup am kv.1 with
          | some attrKey => objSet attrs attrKey kv.2
          | none => attrs)
        acc := by
  induction d generalizing acc with
  | nil => simp
  | cons kv t ih =>
    cases hm : lookup am kv.1 with
    | none => simp [List.foldl_cons, List.filter_cons, hm, ih]
    | some a => simp [List.foldl_cons, List.filter_cons, hm, ih]

/-- Entity data fields with no mapping in the per-type attribute table
contribute nothing to `dataToAttr`. -/
lemma dataToAttr_filter (ty tyx : String) (d : List (String × Option (List Char))) :
    dataToAttr ty ⟨tyx, d⟩
    = dataToAttr ty ⟨tyx, d.filter (fun kv =>
        (lookup ((lookup ENTITY_ATTR_MAP ty).getD []) kv.1).isSome)⟩ := by
  simp only [dataToAttr]
  exact dataToAttr_foldl_filter _ _ _

/-- C8: null-valued and unmapped entity data fields are omitted entirely:
dropping null-valued attributes does not change `stringifyAttrs`,
dropping unmapped data fields does not change `dataToAttr`, and a LINK
entity with `data = {url: v, rel: null}` renders as
`<a href="v">content</a>` with no `rel` attribute at all (no error is
raised for the null or unmapped fields: everything is total). -/
theorem c8_link_attr_omission :
    (∀ attrs : List (String × Option (List Char)),
      stringifyAttrs attrs = stringifyAttrs (attrs.filter (fun kv => kv.2.isSome))) ∧
    (∀ (ty tyx : String) (d : List (String × Option (List Char))),
      dataToAttr ty ⟨tyx, d⟩
      = dataToAttr ty ⟨tyx, d.filter (fun kv =>
          (lookup ((lookup ENTITY_ATTR_MAP ty).getD []) kv.1).isSome)⟩) ∧
    (∀ (v : List Char) (sp : List (List Char × StyleSet)) (m : String → Bool)
        (bt k : String) (blocks : List ContentBlock),
      renderEntityPiece
        ⟨blocks, m, [("1", ⟨ENTITY_TYPE.LINK, [("url", some v), ("rel", none)]⟩)]⟩
        bt k (some "1", sp)
      = S "<a href=\"" ++ encodeAttr v ++ S "\">" ++
          (sp.map (fun p => renderStylePiece m bt k p.1 p.2)).flatten ++ S "</a>") := by
  refine ⟨stringifyAttrs_filter, dataToAttr_filter, ?_⟩
  intro v sp m bt k blocks
  simp [renderEntityPiece, lookup, dataToAttr, stringifyAttrs, objSet,
    ENTITY_ATTR_MAP, ENTITY_TYPE.LINK, ENTITY_TYPE.IMAGE, List.find?, S]

/-! ### IMAGE entities (C10, C5) -/

lemma find?_map_objSet {α : Type} (o : List (String × α)) (a k : String) (v : α)
    (h : a ≠ k) :
    (o.map (fun kv => if kv.1 == a then (a, v) else kv)).find?
        (fun kv => kv.1 == k)
    = o.find? (fun kv => kv.1 == k) := by
  induction o with
  | nil => rfl
  | cons kv t ih =>
    rw [List.map_cons, List.find?_cons, List.find?_cons]
    by_cases h1 : kv.1 = a
    · have h2 : (kv.1 == k) = false := by simp [h1, h]
      have h3 : ((a : String) == k) = false := by simp [h]
      have hg : (if (kv.1 == a) = true then (a, v) else kv) = (a, v) := by
        simp [h1]
      rw [hg]
      simp only [h2, h3, ih]
    · have h4 : (kv.1 == a) = false := by simp [h1]
      have hg : (if (kv.1 == a) = true then (a, v) else kv) = kv := by
        simp [h4]
      rw [hg]
      by_cases h5 : (kv.1 == k) = true
      · simp only [h5]
      · have h6 : (kv.1 == k) = false := by
          cases hb : (kv.1 == k) with
          | false => rfl
          | true => exact absurd hb h5
        simp only [h6, ih]

/-- Updating attribute `a` does not affect the lookup of a different
attribute `k`. -/
lemma lookup_objSet_ne {α : Type} (o : List (String × α)) (a k : String) (v : α)
    (h : a ≠ k) :
    lookup (objSet o a v) k = lookup o k := by
  rw [lookup, lookup, objSet]
  cases hany : (o.any fun kv => kv.1 == a) with
  | true =>
    rw [if_pos rfl, find?_map_objSet _ _ _ _ h]
  | false =>
    rw [if_neg (by decide), List.find?_append]
    have h3 : ((a : String) == k) = false := by simp [h]
    cases hfind : o.find? (fun kv => kv.1 == k) with
    | none => simp [hfind, List.find?_cons, h3]
    | some x => simp [hfind]

/-- If no data field maps to attribute `target`, then `target` is absent
from the attribute object built by the `dataToAttr` fold. -/
lemma lookup_dataToAttr_fold_none (am : List (String × String)) (target : String)
    (d : List (String × Option (List Char)))
    (h : ∀ kv ∈ d, lookup am kv.1 ≠ some target) :
    ∀ acc, lookup acc target = none →
      lookup
        (d.foldl
          (fun attrs kv =>
            match lookup am kv.1 with
            | some attrKey => objSet attrs attrKey kv.2
            | none => attrs)
          acc) target = none := by
  induction d with
  | nil => intro acc hacc; simpa using hacc
  | cons kv t ih =>
    intro acc hacc
    cases hm : lookup am kv.1 with
    | none =>
      simp only [List.foldl_cons, hm]
      exact ih (fun x hx => h x (List.mem_cons_of_mem _ hx)) acc hacc
    | some a =>
      have hne : a ≠ target := by
        intro he
        exact h kv (List.mem_cons_self _ _) (by rw [hm, he])
      simp only [List.foldl_cons, hm]
      exact ih (fun x hx => h x (List.mem_cons_of_mem _ hx)) _
        (by rw [lookup_objSet_ne _ _ _ _ hne]; exact hacc)

/-- The IMAGE attribute table sends a data key to an attribute name only
along its three entries. -/
lemma lookup_image_map (x t : String)
    (h : lookup [("src", "src"), ("alt", "alt"), ("data-original-url", "href")] x
        = some t) :
    (x = "src" ∧ t = "src") ∨ (x = "alt" ∧ t = "alt") ∨
    (x = "data-original-url" ∧ t = "href") := by
  by_cases h1 : x = "src"
  · subst h1; simp [lookup, List.find?_cons] at h; simp [h]
  · by_cases h2 : x = "alt"
    · subst h2; simp [lookup, List.find?_cons] at h; simp [h]
    · by_cases h3 : x = "data-original-url"
      · subst h3; simp [lookup, List.find?_cons] at h; simp [h]
      · exfalso
        have b1 : (("src" : String) == x) = false := by simp [Ne.symm h1]
        have b2 : (("alt" : String) == x) = false := by simp [Ne.symm h2]
        have b3 : (("data-original-url" : String) == x) = false := by
          simp [Ne.symm h3]
        simp [lookup, List.find?_cons, b1, b2, b3] at h

/-- C10: for an IMAGE entity the rendered run ignores its styled inline
content entirely and is the fixed anchor/image template whose `href`,
`src` and `alt` slots are the JS interpolation of the mapped attribute
object; a data object lacking the `data-original-url`, `src` or `alt` key
leaves the corresponding attribute absent, and an absent attribute
interpolates as the literal text `undefined` rather than being omitted. -/
theorem c10_image_undefined :
    ∀ (ctx : GenCtx) (bt k key : String) (e : EntityInstance),
      lookup ctx.entityMap key = some e → e.type = ENTITY_TYPE.IMAGE →
      (∀ sp1 sp2 : List (List Char × StyleSet),
        renderEntityPiece ctx bt k (some key, sp1)
        = renderEntityPiece ctx bt k (some key, sp2)) ∧
      (∀ sp : List (List Char × StyleSet),
        renderEntityPiece ctx bt k (some key, sp)
        = S "<a href=\"" ++ jsStr (lookup (dataToAttr e.type e) "href") ++
          S "\"><img src=\"" ++ jsStr (lookup (dataToAttr e.type e) "src") ++
          S "\" alt=\"" ++ jsStr (lookup (dataToAttr e.type e) "alt") ++
          S "\" /></a>") ∧
      ("data-original-url" ∉ e.data.map (fun kv => kv.1) →
        lookup (dataToAttr e.type e) "href" = none) ∧
      ("src" ∉ e.data.map (fun kv => kv.1) →
        lookup (dataToAttr e.type e) "src" = none) ∧
      ("alt" ∉ e.data.map (fun kv => kv.1) →
        lookup (dataToAttr e.type e) "alt" = none) ∧
      jsStr none = S "undefined" := by
  intro ctx bt k key e hl he
  have hrender : ∀ sp : List (List Char × StyleSet),
      renderEntityPiece ctx bt k (some key, sp)
      = S "<a href=\"" ++ jsStr (lookup (dataToAttr e.type e) "href") ++
        S "\"><img src=\"" ++ jsStr (lookup (dataToAttr e.type e) "src") ++
        S "\" alt=\"" ++ jsStr (lookup (dataToAttr e.type e) "alt") ++
        S "\" /></a>" := by
    intro sp
    simp [renderEntityPiece, hl, he, ENTITY_TYPE.LINK, ENTITY_TYPE.IMAGE]
  have hmap : (lookup ENTITY_ATTR_MAP e.type).getD []
      = [("src", "src"), ("alt", "alt"), ("data-original-url", "href")] := by
    rw [he]; rfl
  have habsent : ∀ dk target : String,
      (∀ kv ∈ e.data, kv.1 ≠ dk) →
      (∀ x t : String,
        lookup [("src", "src"), ("alt", "alt"), ("data-original-url", "href")] x
          = some t → t = target → x = dk) →
      lookup (dataToAttr e.type e) target = none := by
    intro dk target hnk hmapped
    rw [dataToAttr, hmap]
    refine lookup_dataToAttr_fold_none _ _ _ ?_ [] rfl
    intro kv hkv hcontra
    exact hnk kv hkv (hmapped kv.1 target hcontra rfl)
  refine ⟨?_, hrender, ?_, ?_, ?_, rfl⟩
  · intro sp1 sp2; rw [hrender sp1, hrender sp2]
  · intro hmem
    refine habsent "data-original-url" "href" ?_ ?_
    · intro kv hkv hcontra
      exact hmem (hcontra ▸ List.mem_map_of_mem _ hkv)
    · intro x t hx ht
      rcases lookup_image_map x t hx with ⟨h1, h2⟩ | ⟨h1, h2⟩ | ⟨h1, h2⟩
      · exact absurd (h2.symm.trans ht) (by decide)
      · exact absurd (h2.symm.trans ht) (by decide)
      · exact h1
  · intro hmem
    refine habsent "src" "src" ?_ ?_
    · intro kv hkv hcontra
      exact hmem (hcontra ▸ List.mem_map_of_mem _ hkv)
    · intro x t hx ht
      rcases lookup_image_map x t hx with ⟨h1, h2⟩ | ⟨h1, h2⟩ | ⟨h1, h2⟩
      · exact h1
      · exact absurd (h2.symm.trans ht) (by decide)
      · exact absurd (h2.symm.trans ht) (by decide)
  · intro hmem
    refine habsent "alt" "alt" ?_ ?_
    · intro kv hkv hcontra
      exact hmem (hcontra ▸ List.mem_map_of_mem _ hkv)
    · intro x t hx ht
      rcases lookup_image_map x t hx with ⟨h1, h2⟩ | ⟨h1, h2⟩ | ⟨h1, h2⟩
      · exact absurd (h2.symm.trans ht) (by decide)
      · exact h1
      · exact absurd (h2.symm.trans ht) (by decide)

def imgEmptyCtx : GenCtx :=
  ⟨[], fun _ => false, [("1", ⟨ENTITY_TYPE.IMAGE, []⟩)]⟩

/-- Witness for C10 at a concrete IMAGE entity with empty data: the
styled content is discarded and the `href` attribute is absent (hence
interpolates as `undefined`). -/
theorem c10_image_undefined_witness :
    renderEntityPiece imgEmptyCtx "unstyled" "k" (some "1", [(['x'], [])])
      = renderEntityPiece imgEmptyCtx "unstyled" "k" (some "1", []) ∧
    lookup (dataToAttr ENTITY_TYPE.IMAGE ⟨ENTITY_TYPE.IMAGE, []⟩) "href" = none := by
  have h := c10_image_undefined imgEmptyCtx "unstyled" "k" "1"
    ⟨ENTITY_TYPE.IMAGE, []⟩ rfl rfl
  exact ⟨h.1 _ _, h.2.2.1 (by simp)⟩

def imgQuoteCtx : GenCtx :=
  ⟨[], fun _ => false, [("1", ⟨ENTITY_TYPE.IMAGE, [("src", some (S "a\"b"))]⟩)]⟩

/-- C5 counterexample: for an IMAGE entity whose `src` data contains a
double quote, the rendered markup interpolates the value raw — it is not
passed through the attribute-value escaping rule (which would produce
`a&quot;b`), contradicting the claim that every emitted attribute value
is escaped. -/
theorem c5_counterexample :
    renderEntityPiece imgQuoteCtx "unstyled" "k" (some "1", [])
      = S "<a href=\"undefined\"><img src=\"a\"b\" alt=\"undefined\" /></a>" ∧
    renderEntityPiece imgQuoteCtx "unstyled" "k" (some "1", [])
      ≠ S "<a href=\"undefined\"><img src=\"" ++ encodeAttr (S "a\"b") ++
          S "\" alt=\"undefined\" /></a>" := by
  constructor
  · decide
  · decide

/-- C5 (amended): attribute escaping (`encodeAttr`) escapes exactly
ampersand, less-than, greater-than and double quote and is distinct from
the content-encoding path; every attribute value emitted through
`stringifyAttrs` — in particular every LINK attribute — passes through
`encodeAttr`; but the `href`/`src`/`alt` values of the anchor/image
structure rendered for an IMAGE entity are interpolated raw and do not
pass through `encodeAttr`. -/
theorem c5_attr_escaping :
    (∀ text : List Char, encodeAttr text = (text.map attrChar).flatten) ∧
    attrChar '&' = S "&amp;" ∧ attrChar '<' = S "&lt;" ∧
    attrChar '>' = S "&gt;" ∧ attrChar '"' = S "&quot;" ∧
    (∀ attrs : List (String × Option (List Char)),
      stringifyAttrs attrs
      = (attrs.filterMap (fun kv => kv.2.map (fun v =>
          S " " ++ S kv.1 ++ S "=\"" ++ encodeAttr v ++ S "\""))).flatten) ∧
    (∀ (ctx : GenCtx) (bt k key : String) (sp : List (List Char × StyleSet))
        (e : EntityInstance),
      lookup ctx.entityMap key = some e → e.type = ENTITY_TYPE.LINK →
      renderEntityPiece ctx bt k (some key, sp)
      = S "<a" ++ stringifyAttrs (dataToAttr e.type e) ++ S ">" ++
        (sp.map (fun p =>
          renderStylePiece ctx.checkedStateMap bt k p.1 p.2)).flatten ++
        S "</a>") ∧
    (∀ (ctx : GenCtx) (bt k key : String) (sp : List (List Char × StyleSet))
        (e : EntityInstance),
      lookup ctx.entityMap key = some e → e.type = ENTITY_TYPE.IMAGE →
      renderEntityPiece ctx bt k (some key, sp)
      = S "<a href=\"" ++ jsStr (lookup (dataToAttr e.type e) "href") ++
        S "\"><img src=\"" ++ jsStr (lookup (dataToAttr e.type e) "src") ++
        S "\" alt=\"" ++ jsStr (lookup (dataToAttr e.type e) "alt") ++
        S "\" /></a>") := by
  refine ⟨encodeAttr_eq_flatten_map, rfl, rfl, rfl, rfl, stringifyAttrs_eq, ?_, ?_⟩
  · intro ctx bt k key sp e hl he
    simp [renderEntityPiece, hl, he, ENTITY_TYPE.LINK]
  · intro ctx bt k key sp e hl he
    simp [renderEntityPiece, hl, he, ENTITY_TYPE.LINK, ENTITY_TYPE.IMAGE]

def linkEnt : EntityInstance :=
  ⟨ENTITY_TYPE.LINK, [("url", some (S "https://x")), ("rel", none)]⟩

def linkCtx : GenCtx := ⟨[], fun _ => false, [("1", linkEnt)]⟩

/-- Witness for C5 at concrete LINK and IMAGE entities. -/
theorem c5_attr_escaping_witness :
    renderEntityPiece linkCtx "unstyled" "k" (some "1", [])
      = S "<a" ++ stringifyAttrs (dataToAttr linkEnt.type linkEnt) ++ S ">" ++
        (([] : List (List Char × StyleSet)).map (fun p =>
          renderStylePiece linkCtx.checkedStateMap "unstyled" "k" p.1 p.2)).flatten ++
        S "</a>" ∧
    renderEntityPiece imgEmptyCtx "unstyled" "k" (some "1", [])
      = S "<a href=\"" ++
        jsStr (lookup (dataToAttr ENTITY_TYPE.IMAGE ⟨ENTITY_TYPE.IMAGE, []⟩) "href") ++
        S "\"><img src=\"" ++
        jsStr (lookup (dataToAttr ENTITY_TYPE.IMAGE ⟨ENTITY_TYPE.IMAGE, []⟩) "src") ++
        S "\" alt=\"" ++
        jsStr (lookup (dataToAttr ENTITY_TYPE.IMAGE ⟨ENTITY_TYPE.IMAGE, []⟩) "alt") ++
        S "\" /></a>" :=
  ⟨c5_attr_escaping.2.2.2.2.2.2.1 linkCtx "unstyled" "k" "1" [] linkEnt rfl rfl,
   c5_attr_escaping.2.2.2.2.2.2.2 imgEmptyCtx "unstyled" "k" "1" []
     ⟨ENTITY_TYPE.IMAGE, []⟩ rfl rfl⟩

/-! ### List nesting (C2) -/

lemma trimChars_append_newline (M : List Char) (h1 : M.head? = some '<')
    (h2 : M.getLast? = some '>') :
    trimChars (M ++ ['\n']) = M := by
  obtain ⟨M', rfl⟩ : ∃ M', M = '<' :: M' := by
    cases M with
    | nil => simp at h1
    | cons a t =>
      simp only [List.head?_cons, Option.some.injEq] at h1
      exact ⟨t, by rw [h1]⟩
  rw [trimChars]
  have hdrop : (('<' :: M') ++ ['\n']).dropWhile isJsSpace
      = ('<' :: M') ++ ['\n'] := by
    rw [List.cons_append, List.dropWhile_cons]
    simp [show isJsSpace '<' = false from by decide]
  rw [hdrop, List.reverse_append]
  obtain ⟨K, hK⟩ : ∃ K, ('<' :: M').reverse = '>' :: K := by
    cases hr : ('<' :: M').reverse with
    | nil => exact absurd (congrArg List.length hr) (by simp)
    | cons b K =>
      have hb := List.head?_reverse ('<' :: M')
      rw [hr, h2] at hb
      simp only [List.head?_cons, Option.some.injEq] at hb
      exact ⟨K, by rw [hb.symm]⟩
  rw [hK]
  have hws : (('\n' :: []) ++ '>' :: K).dropWhile isJsSpace = '>' :: K := by
    rw [List.cons_append, List.dropWhile_cons]
    simp only [show isJsSpace '\n' = true from by decide, if_true,
      List.nil_append, List.dropWhile_cons]
    simp [show isJsSpace '>' = false from by decide]
  rw [show (['\n'].reverse : List Char) = ('\n' :: []) from rfl, hws, ← hK,
    List.reverse_reverse]

/-- C2: for any three-block document consisting of an unordered list item
at depth 0, one at depth 1, and one at depth 0 (with arbitrary keys,
texts, character metadata, checked-state map and entity registry), the
generator emits exactly the fragments of one outer `<ul>` containing an
`<li>` for block 1 that itself contains the nested
`<ul><li>block2</li></ul>`, followed by a sibling `<li>` for block 3,
with the outer wrapper opened once and closed exactly once at the end;
consequently the generated string is
`<ul>\n  <li>R1\n    <ul>\n      <li>R2</li>\n    </ul>\n  </li>\n  <li>R3</li>\n</ul>`. -/
theorem c2_list_nesting (k1 k2 k3 : String) (t1 t2 t3 : List Char)
    (c1 c2 c3 : List (StyleSet × Option String)) (m : String → Bool)
    (em : List (String × EntityInstance)) :
    (genFinalState
        ⟨[⟨k1, BLOCK_TYPE.UNORDERED_LIST_ITEM, 0, t1, c1⟩,
          ⟨k2, BLOCK_TYPE.UNORDERED_LIST_ITEM, 1, t2, c2⟩,
          ⟨k3, BLOCK_TYPE.UNORDERED_LIST_ITEM, 0, t3, c3⟩], m, em⟩).output
      = [[], S "<ul>\n", S "  ", S "<li>",
         renderBlockContent
           ⟨[⟨k1, BLOCK_TYPE.UNORDERED_LIST_ITEM, 0, t1, c1⟩,
             ⟨k2, BLOCK_TYPE.UNORDERED_LIST_ITEM, 1, t2, c2⟩,
             ⟨k3, BLOCK_TYPE.UNORDERED_LIST_ITEM, 0, t3, c3⟩], m, em⟩
           ⟨k1, BLOCK_TYPE.UNORDERED_LIST_ITEM, 0, t1, c1⟩,
         S "\n", S "    ", S "<ul>\n", S "      ", S "<li>",
         renderBlockContent
           ⟨[⟨k1, BLOCK_TYPE.UNORDERED_LIST_ITEM, 0, t1, c1⟩,
             ⟨k2, BLOCK_TYPE.UNORDERED_LIST_ITEM, 1, t2, c2⟩,
             ⟨k3, BLOCK_TYPE.UNORDERED_LIST_ITEM, 0, t3, c3⟩], m, em⟩
           ⟨k2, BLOCK_TYPE.UNORDERED_LIST_ITEM, 1, t2, c2⟩,
         S "</li>\n", S "    ", S "</ul>\n", S "  ", S "</li>\n",
         S "  ", S "<li>",
         renderBlockContent
           ⟨[⟨k1, BLOCK_TYPE.UNORDERED_LIST_ITEM, 0, t1, c1⟩,
             ⟨k2, BLOCK_TYPE.UNORDERED_LIST_ITEM, 1, t2, c2⟩,
             ⟨k3, BLOCK_TYPE.UNORDERED_LIST_ITEM, 0, t3, c3⟩], m, em⟩
           ⟨k3, BLOCK_TYPE.UNORDERED_LIST_ITEM, 0, t3, c3⟩,
         S "</li>\n", [], S "</ul>\n"] ∧
    generate
        ⟨[⟨k1, BLOCK_TYPE.UNORDERED_LIST_ITEM, 0, t1, c1⟩,
          ⟨k2, BLOCK_TYPE.UNORDERED_LIST_ITEM, 1, t2, c2⟩,
          ⟨k3, BLOCK_TYPE.UNORDERED_LIST_ITEM, 0, t3, c3⟩], m, em⟩
      = S "<ul>\n  <li>" ++
        (renderBlockContent
            ⟨[⟨k1, BLOCK_TYPE.UNORDERED_LIST_ITEM, 0, t1, c1⟩,
              ⟨k2, BLOCK_TYPE.UNORDERED_LIST_ITEM, 1, t2, c2⟩,
              ⟨k3, BLOCK_TYPE.UNORDERED_LIST_ITEM, 0, t3, c3⟩], m, em⟩
            ⟨k1, BLOCK_TYPE.UNORDERED_LIST_ITEM, 0, t1, c1⟩ ++
         (S "\n    <ul>\n      <li>" ++
          (renderBlockContent
              ⟨[⟨k1, BLOCK_TYPE.UNORDERED_LIST_ITEM, 0, t1, c1⟩,
                ⟨k2, BLOCK_TYPE.UNORDERED_LIST_ITEM, 1, t2, c2⟩,
                ⟨k3, BLOCK_TYPE.UNORDERED_LIST_ITEM, 0, t3, c3⟩], m, em⟩
              ⟨k2, BLOCK_TYPE.UNORDERED_LIST_ITEM, 1, t2, c2⟩ ++
           (S "</li>\n    </ul>\n  </li>\n  <li>" ++
            (renderBlockContent
                ⟨[⟨k1, BLOCK_TYPE.UNORDERED_LIST_ITEM, 0, t1, c1⟩,
                  ⟨k2, BLOCK_TYPE.UNORDERED_LIST_ITEM, 1, t2, c2⟩,
                  ⟨k3, BLOCK_TYPE.UNORDERED_LIST_ITEM, 0, t3, c3⟩], m, em⟩
                ⟨k3, BLOCK_TYPE.UNORDERED_LIST_ITEM, 0, t3, c3⟩ ++
             S "</li>\n</ul>"))))) := by
  set ctx : GenCtx :=
    ⟨[⟨k1, BLOCK_TYPE.UNORDERED_LIST_ITEM, 0, t1, c1⟩,
      ⟨k2, BLOCK_TYPE.UNORDERED_LIST_ITEM, 1, t2, c2⟩,
      ⟨k3, BLOCK_TYPE.UNORDERED_LIST_ITEM, 0, t3, c3⟩], m, em⟩ with hctx
  set R1 := renderBlockContent ctx ⟨k1, BLOCK_TYPE.UNORDERED_LIST_ITEM, 0, t1, c1⟩
    with hR1
  set R2 := renderBlockContent ctx ⟨k2, BLOCK_TYPE.UNORDERED_LIST_ITEM, 1, t2, c2⟩
    with hR2
  set R3 := renderBlockContent ctx ⟨k3, BLOCK_TYPE.UNORDERED_LIST_ITEM, 0, t3, c3⟩
    with hR3
  have hout : (genFinalState ctx).output
      = [[], S "<ul>\n", S "  ", S "<li>", R1,
         S "\n", S "    ", S "<ul>\n", S "      ", S "<li>", R2,
         S "</li>\n", S "    ", S "</ul>\n", S "  ", S "</li>\n",
         S "  ", S "<li>", R3, S "</li>\n", [], S "</ul>\n"] := by
    rw [hctx, hR1, hR2, hR3]
    simp only [genFinalState, List.length_cons, List.length_nil]
    norm_num
    simp [generateLoop, processBlock, processBlocksAtDepth, wrapperAdjust,
      pushIndent, push, writeStartTag, writeEndTag, openWrapperTag,
      closeWrapperTag, getTags, getWrapperTag, canHaveDepth, indentFrag,
      openFrag, closeFrag, INDENT, BLOCK_TYPE.HEADER_ONE, BLOCK_TYPE.HEADER_TWO,
      BLOCK_TYPE.HEADER_THREE, BLOCK_TYPE.HEADER_FOUR, BLOCK_TYPE.HEADER_FIVE,
      BLOCK_TYPE.HEADER_SIX, BLOCK_TYPE.UNORDERED_LIST_ITEM,
      BLOCK_TYPE.ORDERED_LIST_ITEM, BLOCK_TYPE.CHECKABLE_LIST_ITEM,
      BLOCK_TYPE.BLOCKQUOTE, BLOCK_TYPE.CODE, BLOCK_TYPE.ATOMIC, S]
    exact ⟨rfl, rfl, rfl⟩
  refine ⟨hout, ?_⟩
  have hflat : (genFinalState ctx).output.flatten
      = (S "<ul>\n  <li>" ++
          (R1 ++ (S "\n    <ul>\n      <li>" ++
            (R2 ++ (S "</li>\n    </ul>\n  </li>\n  <li>" ++
              (R3 ++ S "</li>\n</ul>")))))) ++ ['\n'] := by
    rw [hout]
    simp only [List.flatten_cons, List.flatten_nil, List.append_nil,
      List.nil_append, List.append_assoc]
    rfl
  have hne4 : (S "</li>\n</ul>" : List Char) ≠ [] := by decide
  have hne3 : R3 ++ S "</li>\n</ul>" ≠ [] := fun h =>
    hne4 (List.append_eq_nil.mp h).2
  have hne2b : S "</li>\n    </ul>\n  </li>\n  <li>" ++
      (R3 ++ S "</li>\n</ul>") ≠ [] := fun h =>
    hne3 (List.append_eq_nil.mp h).2
  have hne2 : R2 ++ (S "</li>\n    </ul>\n  </li>\n  <li>" ++
      (R3 ++ S "</li>\n</ul>")) ≠ [] := fun h =>
    hne2b (List.append_eq_nil.mp h).2
  have hne1b : S "\n    <ul>\n      <li>" ++
      (R2 ++ (S "</li>\n    </ul>\n  </li>\n  <li>" ++
        (R3 ++ S "</li>\n</ul>"))) ≠ [] := fun h =>
    hne2 (List.append_eq_nil.mp h).2
  have hne1 : R1 ++ (S "\n    <ul>\n      <li>" ++
      (R2 ++ (S "</li>\n    </ul>\n  </li>\n  <li>" ++
        (R3 ++ S "</li>\n</ul>")))) ≠ [] := fun h =>
    hne1b (List.append_eq_nil.mp h).2
  have hlast : (S "<ul>\n  <li>" ++
      (R1 ++ (S "\n    <ul>\n      <li>" ++
        (R2 ++ (S "</li>\n    </ul>\n  </li>\n  <li>" ++
          (R3 ++ S "</li>\n</ul>")))))).getLast? = some '>' := by
    rw [List.getLast?_append_of_ne_nil _ hne1,
      List.getLast?_append_of_ne_nil _ hne1b,
      List.getLast?_append_of_ne_nil _ hne2,
      List.getLast?_append_of_ne_nil _ hne2b,
      List.getLast?_append_of_ne_nil _ hne3,
      List.getLast?_append_of_ne_nil _ hne4]
    decide
  rw [generate, hflat]
  exact trimChars_append_newline _ rfl hlast

/-! ### Wrapper balance (C6): rendered content never looks like a
wrapper fragment -/

/-- A fragment is head-safe when it is empty, or does not start with `<`
followed by `u`, `o` or `/` (and a single `<` alone is excluded).  All
rendered block content is head-safe, so no content fragment can equal a
wrapper tag fragment `<ul>`/`<ol>`/`</ul>`/`</ol>`. -/
def headSafe (l : List Char) : Bool :=
  match l with
  | [] => true
  | [c] => c != '<'
  | c :: d :: _ => c != '<' || (d != 'u' && d != 'o' && d != '/')

lemma headSafe_flatten (ps : List (List Char))
    (h : ∀ p ∈ ps, headSafe p = true) : headSafe ps.flatten = true := by
  induction ps with
  | nil => rfl
  | cons p ps ih =>
    have hp := h p (List.mem_cons_self _ _)
    have hrest := ih (fun q hq => h q (List.mem_cons_of_mem _ hq))
    rw [List.flatten_cons]
    cases p with
    | nil => simpa using hrest
    | cons c p' =>
      cases p' with
      | nil =>
        have hc : (c != '<') = true := hp
        cases hf : ps.flatten with
        | nil => simpa [hf, headSafe] using hc
        | cons d r =>
          rw [List.cons_append, List.nil_append]
          show (c != '<' || (d != 'u' && d != 'o' && d != '/')) = true
          rw [hc, Bool.true_or]
      | cons d p'' =>
        rw [List.cons_append, List.cons_append]
        show (c != '<' || (d != 'u' && d != 'o' && d != '/')) = true
        exact hp

lemma encodeContent_headSafe (text : List Char) :
    headSafe (encodeContent text) = true := by
  cases text with
  | nil => rfl
  | cons c rest =>
    rw [encodeContent_cons]
    by_cases h1 : c = '&'
    · subst h1; rfl
    · by_cases h2 : c = '<'
      · subst h2; rfl
      · by_cases h3 : c = '>'
        · subst h3; rfl
        · by_cases h4 : c = nbspChar
          · subst h4; rfl
          · by_cases h5 : c = '\n'
            · subst h5; rfl
            · rw [show encChar c = [c] by simp [encChar, h1, h2, h3, h4, h5]]
              have hc : (c != '<') = true := by simp [h2]
              cases hrest : encodeContent rest with
              | nil => simpa [headSafe] using hc
              | cons d r =>
                rw [List.cons_append, List.nil_append]
                show (c != '<' || (d != 'u' && d != 'o' && d != '/')) = true
                rw [hc, Bool.true_or]

lemma applyLegacySpan_headSafe (style : StyleSet) (content : List Char)
    (h : headSafe content = true) :
    headSafe (applyLegacySpan style content) = true := by
  simp only [applyLegacySpan]
  split_ifs <;> first | rfl | exact h

lemma applyBold_headSafe (style : StyleSet) (content : List Char)
    (h : headSafe content = true) :
    headSafe (applyBold style content) = true := by
  unfold applyBold
  split_ifs <;> first | rfl | exact h

lemma applyUnderline_headSafe (style : StyleSet) (content : List Char)
    (h : headSafe content = true) :
    headSafe (applyUnderline style content) = true := by
  unfold applyUnderline
  split_ifs <;> first | rfl | exact h

lemma applyItalic_headSafe (style : StyleSet) (content : List Char)
    (h : headSafe content = true) :
    headSafe (applyItalic style content) = true := by
  unfold applyItalic
  split_ifs <;> first | rfl | exact h

lemma applyStrikethrough_headSafe (style : StyleSet) (content : List Char)
    (h : headSafe content = true) :
    headSafe (applyStrikethrough style content) = true := by
  unfold applyStrikethrough
  split_ifs <;> first | rfl | exact h

lemma applyCode_headSafe (bt : String) (style : StyleSet) (content : List Char)
    (h : headSafe content = true) :
    headSafe (applyCode bt style content) = true := by
  unfold applyCode
  split_ifs <;> first | rfl | exact h

lemma applyCheckbox_headSafe (m : String → Bool) (bt k : String)
    (content : List Char) (h : headSafe content = true) :
    headSafe (applyCheckbox m bt k content) = true := by
  unfold applyCheckbox
  split_ifs <;> first | rfl | exact h

lemma renderStylePiece_headSafe (m : String → Bool) (bt k : String)
    (text : List Char) (style : StyleSet) :
    headSafe (renderStylePiece m bt k text style) = true := by
  unfold renderStylePiece
  exact applyCheckbox_headSafe _ _ _ _
    (applyCode_headSafe _ _ _
      (applyStrikethrough_headSafe _ _
        (applyItalic_headSafe _ _
          (applyUnderline_headSafe _ _
            (applyBold_headSafe _ _
              (applyLegacySpan_headSafe _ _ (encodeContent_headSafe text)))))))

lemma renderEntityPiece_headSafe (ctx : GenCtx) (bt k : String)
    (piece : Option String × List (List Char × StyleSet)) :
    headSafe (renderEntityPiece ctx bt k piece) = true := by
  have hcontent : headSafe
      ((piece.2.map (fun sp =>
        renderStylePiece ctx.checkedStateMap bt k sp.1 sp.2)).flatten) = true := by
    refine headSafe_flatten _ ?_
    intro p hp
    rw [List.mem_map] at hp
    obtain ⟨sp, _, rfl⟩ := hp
    exact renderStylePiece_headSafe _ bt k sp.1 sp.2
  cases hent : piece.1.bind (fun kk => lookup ctx.entityMap kk) with
  | none =>
    simp only [renderEntityPiece, hent]
    exact hcontent
  | some e =>
    simp only [renderEntityPiece, hent]
    split_ifs <;> first | rfl | exact hcontent

lemma renderBlockContent_headSafe (ctx : GenCtx) (block : ContentBlock) :
    headSafe (renderBlockContent ctx block) = true := by
  by_cases h : block.text = []
  · simp only [renderBlockContent, h, if_pos]
    rfl
  · simp only [renderBlockContent, h, if_neg, if_false]
    refine headSafe_flatten _ ?_
    intro p hp
    rw [List.mem_map] at hp
    obtain ⟨piece, _, rfl⟩ := hp
    exact renderEntityPiece_headSafe ctx block.type block.key piece

/-! ### Wrapper fragment bookkeeping -/

lemma openFrag_cons (t : String) : openFrag t = '<' :: (S t ++ S ">\n") := rfl

lemma closeFrag_cons (w : String) : closeFrag w = '<' :: '/' :: (S w ++ S ">\n") := rfl

lemma openFrag_getLast (t : String) : (openFrag t).getLast? = some '\n' := by
  rw [openFrag, List.getLast?_append_of_ne_nil _ (by decide)]
  rfl

lemma closeFrag_getLast (t : String) : (closeFrag t).getLast? = some '\n' := by
  rw [closeFrag, List.getLast?_append_of_ne_nil _ (by decide)]
  rfl

lemma closeFrag_ne_openFrag (w t : String) (ht : t = "ul" ∨ t = "ol") :
    closeFrag w ≠ openFrag t := by
  rcases ht with rfl | rfl
  · intro he
    rw [closeFrag_cons, show openFrag "ul" =
        '<' :: 'u' :: 'l' :: '>' :: '\n' :: ([] : List Char) from rfl] at he
    injection he with h1 h2
    injection h2 with h3 _
    exact absurd h3 (by decide)
  · intro he
    rw [closeFrag_cons, show openFrag "ol" =
        '<' :: 'o' :: 'l' :: '>' :: '\n' :: ([] : List Char) from rfl] at he
    injection he with h1 h2
    injection h2 with h3 _
    exact absurd h3 (by decide)

lemma closeFrag_inj (w t : String) (h : closeFrag w = closeFrag t) : w = t := by
  rw [closeFrag_cons, closeFrag_cons] at h
  injection h with h1 h2
  injection h2 with h3 h4
  exact String.ext (List.append_cancel_right h4)

lemma openFrag_inj (u t : String) (h : openFrag u = openFrag t) : u = t := by
  rw [openFrag_cons, openFrag_cons] at h
  injection h with h1 h2
  exact String.ext (List.append_cancel_right h2)

lemma headSafe_ne_frags (l : List Char) (t : String) (ht : t = "ul" ∨ t = "ol")
    (h : headSafe l = true) : l ≠ openFrag t ∧ l ≠ closeFrag t := by
  rcases ht with rfl | rfl <;>
    exact ⟨fun he => absurd (by rw [he] at h; exact h) (by decide),
           fun he => absurd (by rw [he] at h; exact h) (by decide)⟩

lemma indentFrag_succ (n : Nat) : indentFrag (n + 1) = ' ' :: ' ' :: indentFrag n := rfl

lemma indentFrag_ne (n : Nat) (t : String) (ht : t = "ul" ∨ t = "ol") :
    indentFrag n ≠ openFrag t ∧ indentFrag n ≠ closeFrag t := by
  cases n with
  | zero => rcases ht with rfl | rfl <;> exact ⟨by decide, by decide⟩
  | succ k =>
    rw [indentFrag_succ]
    rcases ht with rfl | rfl <;>
      refine ⟨fun he => ?_, fun he => ?_⟩
    · rw [show openFrag "ul" = '<' :: 'u' :: 'l' :: '>' :: '\n' :: ([] : List Char)
        from rfl] at he
      injection he with h1 _
      exact absurd h1 (by decide)
    · rw [show closeFrag "ul" = '<' :: '/' :: 'u' :: 'l' :: '>' :: '\n' ::
        ([] : List Char) from rfl] at he
      injection he with h1 _
      exact absurd h1 (by decide)
    · rw [show openFrag "ol" = '<' :: 'o' :: 'l' :: '>' :: '\n' :: ([] : List Char)
        from rfl] at he
      injection he with h1 _
      exact absurd h1 (by decide)
    · rw [show closeFrag "ol" = '<' :: '/' :: 'o' :: 'l' :: '>' :: '\n' ::
        ([] : List Char) from rfl] at he
      injection he with h1 _
      exact absurd h1 (by decide)

lemma netOpen_append_single (t : String) (out : List (List Char)) (f : List Char) :
    netOpen t (out ++ [f]) = netOpen t out +
      (if f = openFrag t then 1 else 0) - (if f = closeFrag t then 1 else 0) := by
  unfold netOpen fragCount
  rw [List.countP_append, List.countP_append]
  simp only [List.countP_cons, List.countP_nil, decide_eq_true_eq, Nat.zero_add]
  push_cast
  split_ifs <;> omega

/-- The wrapper-balance transfer relation: across a generator step, the
change in the net number of open `<t>` wrappers in the output equals the
change in the wrapper-tag indicator.  All generator operations preserve
it. -/
def NetRel (t : String) (s1 s2 : GenState) : Prop :=
  netOpen t s2.output + wrapInd t s1.wrapperTag
    = netOpen t s1.output + wrapInd t s2.wrapperTag

lemma netRel_rfl (t : String) (s : GenState) : NetRel t s s := rfl

lemma netRel_trans {t : String} {s1 s2 s3 : GenState}
    (h1 : NetRel t s1 s2) (h2 : NetRel t s2 s3) : NetRel t s1 s3 := by
  unfold NetRel at *
  omega

lemma netRel_of_parts {t : String} {s1 s2 : GenState}
    (hout : netOpen t s2.output = netOpen t s1.output)
    (hw : s2.wrapperTag = s1.wrapperTag) : NetRel t s1 s2 := by
  unfold NetRel
  rw [hout, hw]

lemma netRel_push_neutral (t : String) (s : GenState) (f : List Char)
    (h1 : f ≠ openFrag t) (h2 : f ≠ closeFrag t) : NetRel t s (push s f) := by
  refine netRel_of_parts ?_ rfl
  show netOpen t (s.output ++ [f]) = netOpen t s.output
  rw [netOpen_append_single, if_neg h1, if_neg h2]
  omega

lemma netRel_pushIndent (t : String) (ht : t = "ul" ∨ t = "ol") (s : GenState) :
    NetRel t s (pushIndent s) :=
  netRel_push_neutral t s _ (indentFrag_ne _ t ht).1 (indentFrag_ne _ t ht).2

lemma netRel_push_headSafe (t : String) (ht : t = "ul" ∨ t = "ol")
    (s : GenState) (f : List Char) (hf : headSafe f = true) :
    NetRel t s (push s f) :=
  netRel_push_neutral t s f (headSafe_ne_frags f t ht hf).1
    (headSafe_ne_frags f t ht hf).2

lemma getTags_cases (bt : String) :
    getTags bt = ["h1"] ∨ getTags bt = ["h2"] ∨ getTags bt = ["h3"] ∨
    getTags bt = ["h4"] ∨ getTags bt = ["h5"] ∨ getTags bt = ["h6"] ∨
    getTags bt = ["li"] ∨ getTags bt = ["blockquote"] ∨
    getTags bt = ["pre", "code"] ∨ getTags bt = ["figure"] ∨
    getTags bt = ["div"] := by
  unfold getTags
  split_ifs <;> simp

lemma getWrapperTag_cases (bt : String) :
    getWrapperTag bt = none ∨ getWrapperTag bt = some "ul" ∨
    getWrapperTag bt = some "ol" := by
  unfold getWrapperTag
  split_ifs <;> simp

lemma netRel_writeStartTag (t : String) (ht : t = "ul" ∨ t = "ol")
    (bt : String) (s : GenState) : NetRel t s (writeStartTag bt s) := by
  rcases getTags_cases bt with h | h | h | h | h | h | h | h | h | h | h <;>
    rcases ht with rfl | rfl <;>
    · rw [writeStartTag, h]
      first
      | exact netRel_trans
          (netRel_push_neutral _ _ _ (by decide) (by decide))
          (netRel_push_neutral _ _ _ (by decide) (by decide))
      | exact netRel_push_neutral _ _ _ (by decide) (by decide)

lemma netRel_writeEndTag (t : String) (ht : t = "ul" ∨ t = "ol")
    (bt : String) (s : GenState) : NetRel t s (writeEndTag bt s) := by
  rcases getTags_cases bt with h | h | h | h | h | h | h | h | h | h | h <;>
    rcases ht with rfl | rfl <;>
    · rw [writeEndTag, h]
      exact netRel_push_neutral _ _ _ (by decide) (by decide)

lemma closeWrapperTag_wrapperTag (s : GenState) :
    (closeWrapperTag s).wrapperTag = none := by
  cases hw : s.wrapperTag with
  | none => simp [closeWrapperTag, hw]
  | some w => simp [closeWrapperTag, hw]

lemma netRel_closeWrapperTag (t : String) (ht : t = "ul" ∨ t = "ol")
    (s : GenState) : NetRel t s (closeWrapperTag s) := by
  cases hw : s.wrapperTag with
  | none =>
    have he : closeWrapperTag s = s := by simp [closeWrapperTag, hw]
    rw [he]
    exact netRel_rfl t s
  | some w =>
    unfold NetRel
    simp only [closeWrapperTag, hw, pushIndent, push]
    rw [netOpen_append_single, netOpen_append_single,
      if_neg (indentFrag_ne _ t ht).1, if_neg (indentFrag_ne _ t ht).2,
      if_neg (closeFrag_ne_openFrag w t ht)]
    by_cases hwt : w = t
    · subst hwt
      rw [if_pos rfl]
      unfold wrapInd
      rw [if_pos rfl, if_neg (by simp)]
      omega
    · rw [if_neg (fun hc => hwt (closeFrag_inj w t hc))]
      unfold wrapInd
      rw [if_neg (by simp [hwt]), if_neg (by simp)]
      omega

lemma netRel_openWrapperTag (t : String) (ht : t = "ul" ∨ t = "ol")
    (u : String) (hu : u = "ul" ∨ u = "ol") (s : GenState)
    (hs : s.wrapperTag = none) : NetRel t s (openWrapperTag u s) := by
  unfold NetRel
  simp only [openWrapperTag, pushIndent, push]
  rw [netOpen_append_single, netOpen_append_single,
    if_neg (indentFrag_ne _ t ht).1, if_neg (indentFrag_ne _ t ht).2]
  have hoc : openFrag u ≠ closeFrag t := by
    intro hc
    exact closeFrag_ne_openFrag t u hu hc.symm
  rw [if_neg hoc, hs]
  by_cases hut : u = t
  · subst hut
    rw [if_pos rfl]
    unfold wrapInd
    rw [if_neg (by simp), if_pos rfl]
    omega
  · rw [if_neg (fun hc => hut (openFrag_inj u t hc))]
    unfold wrapInd
    rw [if_neg (by simp), if_neg (by simp [hut])]
    omega

lemma netRel_wrapperAdjust (t : String) (ht : t = "ul" ∨ t = "ol")
    (nt : Option String)
    (hnt : nt = none ∨ nt = some "ul" ∨ nt = some "ol") (s : GenState) :
    NetRel t s (wrapperAdjust nt s) := by
  unfold wrapperAdjust
  by_cases hne : s.wrapperTag ≠ nt
  · rw [if_pos hne]
    have hrel1 : NetRel t s (if s.wrapperTag.isSome then closeWrapperTag s else s) := by
      split_ifs
      · exact netRel_closeWrapperTag t ht s
      · exact netRel_rfl t s
    have hnone : (if s.wrapperTag.isSome then closeWrapperTag s else s).wrapperTag
        = none := by
      split_ifs with h'
      · exact closeWrapperTag_wrapperTag s
      · exact Option.not_isSome_iff_eq_none.mp (by simpa using h')
    rcases hnt with rfl | rfl | rfl
    · exact hrel1
    · exact netRel_trans hrel1
        (netRel_openWrapperTag t ht "ul" (Or.inl rfl) _ hnone)
    · exact netRel_trans hrel1
        (netRel_openWrapperTag t ht "ol" (Or.inr rfl) _ hnone)
  · rw [if_neg hne]
    exact netRel_rfl t s

lemma processBlocksAtDepth_wrapperTag (ctx : GenCtx) (d : Nat) :
    ∀ (fuel : Nat) (s : GenState),
      (processBlocksAtDepth ctx d fuel s).wrapperTag = none := by
  intro fuel
  induction fuel with
  | zero =>
    intro s
    rw [processBlocksAtDepth, if_pos rfl]
    exact closeWrapperTag_wrapperTag s
  | succ n ih =>
    intro s
    rw [processBlocksAtDepth, if_neg (Nat.succ_ne_zero n)]
    cases hb : ctx.blocks[s.currentBlock]? with
    | none => exact closeWrapperTag_wrapperTag s
    | some b =>
      simp only [hb]
      by_cases hd : b.depth = d
      · rw [if_pos hd]
        simp only [Nat.add_sub_cancel]
        exact ih _
      · rw [if_neg hd]
        exact closeWrapperTag_wrapperTag s

lemma netOpen_eq_of_netRel_none {t : String} {s1 s2 : GenState}
    (h : NetRel t s1 s2) (h1 : s1.wrapperTag = none)
    (h2 : s2.wrapperTag = none) :
    netOpen t s2.output = netOpen t s1.output := by
  unfold NetRel wrapInd at h
  rw [h1, h2] at h
  simpa using h

lemma netRel_stash_step (t : String) (s5 s7 : GenState)
    (hnet : netOpen t s7.output = netOpen t s5.output) :
    NetRel t s5 { s7 with
                  wrapperTag := s5.wrapperTag,
                  indentLevel := s7.indentLevel - 1 } := by
  unfold NetRel
  rw [show ({ s7 with
      wrapperTag := s5.wrapperTag,
      indentLevel := s7.indentLevel - 1 } : GenState).output = s7.output from rfl]
  rw [hnet]

lemma netRel_setCurrent (t : String) (s : GenState) (n : Nat) :
    NetRel t s { s with currentBlock := n } := rfl

lemma nl_ne_openFrag (t : String) (ht : t = "ul" ∨ t = "ol") :
    S "\n" ≠ openFrag t := by
  rcases ht with rfl | rfl <;> decide

lemma nl_ne_closeFrag (t : String) (ht : t = "ul" ∨ t = "ol") :
    S "\n" ≠ closeFrag t := by
  rcases ht with rfl | rfl <;> decide

/-- The balance invariant for a single `processBlock` call: the change in
the net number of open `<t>` wrapper fragments equals the change of the
wrapper-tag indicator, for the wrapper tags `ul` and `ol`. -/
lemma netRel_processBlock (ctx : GenCtx) (t : String)
    (ht : t = "ul" ∨ t = "ol") :
    ∀ (fuel : Nat) (s : GenState), NetRel t s (processBlock ctx fuel s) := by
  refine processBlock.induct ctx
    (fun fuel s => NetRel t s (processBlock ctx fuel s))
    (fun depth fuel s => NetRel t s (processBlocksAtDepth ctx depth fuel s))
    ?_ ?_ ?_ ?_ ?_ ?_ ?_ ?_ ?_
  · intro s
    rw [processBlock, if_pos rfl]
    exact netRel_rfl t s
  · intro fuel s hf hb
    rw [processBlock, if_neg hf, hb]
    exact netRel_rfl t s
  · intro fuel s hf block hb
    dsimp only
    intro nextBlock hnext hcond ih
    simp only [processBlock, hf, if_false, hb, hnext, hcond, if_true]
    refine netRel_trans (netRel_wrapperAdjust t ht _ (getWrapperTag_cases block.type) s) ?_
    refine netRel_trans (netRel_pushIndent t ht _) ?_
    refine netRel_trans (netRel_writeStartTag t ht block.type _) ?_
    refine netRel_trans
      (netRel_push_headSafe t ht _ _ (renderBlockContent_headSafe ctx block)) ?_
    refine netRel_trans
      (netRel_push_neutral t _ (S "\n") (nl_ne_openFrag t ht) (nl_ne_closeFrag t ht)) ?_
    refine netRel_trans ?_
      (netRel_trans (netRel_pushIndent t ht _) (netRel_writeEndTag t ht block.type _))
    refine netRel_stash_step t _ _ ?_
    have hopen := netOpen_eq_of_netRel_none ih rfl
      (processBlocksAtDepth_wrapperTag ctx _ _ _)
    exact hopen
  · intro fuel s hf block hb
    dsimp only
    intro nextBlock hnext hcond
    simp only [processBlock, hf, if_false, hb, hnext, hcond]
    refine netRel_trans (netRel_wrapperAdjust t ht _ (getWrapperTag_cases block.type) s) ?_
    refine netRel_trans (netRel_pushIndent t ht _) ?_
    refine netRel_trans (netRel_writeStartTag t ht block.type _) ?_
    refine netRel_trans
      (netRel_push_headSafe t ht _ _ (renderBlockContent_headSafe ctx block)) ?_
    exact netRel_trans (netRel_setCurrent t _ _) (netRel_writeEndTag t ht block.type _)
  · intro fuel s hf block hb
    dsimp only
    intro hnext
    simp only [processBlock, hf, if_false, hb, hnext]
    refine netRel_trans (netRel_wrapperAdjust t ht _ (getWrapperTag_cases block.type) s) ?_
    refine netRel_trans (netRel_pushIndent t ht _) ?_
    refine netRel_trans (netRel_writeStartTag t ht block.type _) ?_
    refine netRel_trans
      (netRel_push_headSafe t ht _ _ (renderBlockContent_headSafe ctx block)) ?_
    exact netRel_trans (netRel_setCurrent t _ _) (netRel_writeEndTag t ht block.type _)
  · intro depth s
    rw [processBlocksAtDepth, if_pos rfl]
    exact netRel_closeWrapperTag t ht s
  · intro fuel s hf nextBlock hb ih1 ih2
    rw [processBlocksAtDepth, if_neg hf, hb]
    show NetRel t s (if nextBlock.depth = nextBlock.depth then
      processBlocksAtDepth ctx nextBlock.depth (fuel - 1) (processBlock ctx (fuel - 1) s)
      else closeWrapperTag s)
    rw [if_pos rfl]
    exact netRel_trans ih1 ih2
  · intro depth fuel s hf nextBlock hb hd
    rw [processBlocksAtDepth, if_neg hf, hb]
    show NetRel t s (if nextBlock.depth = depth then
      processBlocksAtDepth ctx depth (fuel - 1) (processBlock ctx (fuel - 1) s)
      else closeWrapperTag s)
    rw [if_neg hd]
    exact netRel_closeWrapperTag t ht s
  · intro depth fuel s hf hb
    rw [processBlocksAtDepth, if_neg hf, hb]
    exact netRel_closeWrapperTag t ht s

lemma netRel_generateLoop (ctx : GenCtx) (t : String)
    (ht : t = "ul" ∨ t = "ol") :
    ∀ (fuel : Nat) (s : GenState), NetRel t s (generateLoop ctx fuel s) := by
  intro fuel
  induction fuel with
  | zero =>
    intro s
    rw [generateLoop, if_pos rfl]
    exact netRel_rfl t s
  | succ n ih =>
    intro s
    rw [generateLoop, if_neg (Nat.succ_ne_zero n)]
    by_cases hc : s.currentBlock < ctx.blocks.length
    · rw [if_pos hc]
      simp only [Nat.add_sub_cancel]
      exact netRel_trans (netRel_processBlock ctx t ht n s) (ih _)
    · rw [if_neg hc]
      exact netRel_rfl t s

/-! ### Output extension: the generator only appends -/

/-- `s2`'s output buffer extends `s1`'s. -/
def OutExt (s1 s2 : GenState) : Prop := ∃ l, s2.output = s1.output ++ l

lemma outExt_refl (s : GenState) : OutExt s s := ⟨[], by simp⟩

lemma outExt_trans {s1 s2 s3 : GenState} (h1 : OutExt s1 s2)
    (h2 : OutExt s2 s3) : OutExt s1 s3 := by
  obtain ⟨l1, e1⟩ := h1
  obtain ⟨l2, e2⟩ := h2
  exact ⟨l1 ++ l2, by rw [e2, e1, List.append_assoc]⟩

lemma outExt_push (s : GenState) (f : List Char) : OutExt s (push s f) := ⟨[f], rfl⟩

lemma outExt_pushIndent (s : GenState) : OutExt s (pushIndent s) := ⟨_, rfl⟩

lemma outExt_stash (s : GenState) :
    OutExt s { s with
               wrapperTag := none,
               indentLevel := s.indentLevel + 1,
               currentBlock := s.currentBlock + 1 } := ⟨[], by simp⟩

lemma outExt_restore (s : GenState) (w : Option String) :
    OutExt s { s with
               wrapperTag := w,
               indentLevel := s.indentLevel - 1 } := ⟨[], by simp⟩

lemma outExt_setCurrent (s : GenState) (n : Nat) :
    OutExt s { s with currentBlock := n } := ⟨[], by simp⟩

lemma outExt_foldl_push (g : String → List Char) (tags : List String) :
    ∀ s : GenState, OutExt s (tags.foldl (fun s tag => push s (g tag)) s) := by
  induction tags with
  | nil => intro s; exact outExt_refl s
  | cons a l ih =>
    intro s
    rw [List.foldl_cons]
    exact outExt_trans (outExt_push s (g a)) (ih _)

lemma outExt_writeStartTag (bt : String) (s : GenState) :
    OutExt s (writeStartTag bt s) :=
  outExt_foldl_push (fun tag => S "<" ++ S tag ++ S ">") (getTags bt) s

lemma outExt_writeEndTag (bt : String) (s : GenState) :
    OutExt s (writeEndTag bt s) := by
  simp only [writeEndTag]
  split_ifs
  · exact outExt_push s _
  · exact outExt_push s _

lemma outExt_finish (bt : String) (s : GenState) (w : Option String) :
    OutExt s (writeEndTag bt (pushIndent { s with
      wrapperTag := w, indentLevel := s.indentLevel - 1 })) :=
  outExt_trans (outExt_restore s w)
    (outExt_trans (outExt_pushIndent _) (outExt_writeEndTag bt _))

lemma outExt_closeWrapperTag (s : GenState) : OutExt s (closeWrapperTag s) := by
  obtain ⟨out, cb, il, wt⟩ := s
  cases wt with
  | none => exact outExt_refl _
  | some w =>
    exact ⟨[indentFrag (il - 1), closeFrag w],
      by simp [closeWrapperTag, pushIndent, push]⟩

lemma outExt_openWrapperTag (u : String) (s : GenState) :
    OutExt s (openWrapperTag u s) := by
  obtain ⟨out, cb, il, wt⟩ := s
  exact ⟨[indentFrag il, openFrag u],
    by simp [openWrapperTag, pushIndent, push]⟩

lemma outExt_wrapperAdjust (nt : Option String) (s : GenState) :
    OutExt s (wrapperAdjust nt s) := by
  rw [wrapperAdjust]
  by_cases h1 : s.wrapperTag ≠ nt
  · rw [if_pos h1]
    have hstep : OutExt s (if s.wrapperTag.isSome then closeWrapperTag s else s) := by
      by_cases h2 : s.wrapperTag.isSome
      · rw [if_pos h2]; exact outExt_closeWrapperTag s
      · rw [if_neg h2]; exact outExt_refl s
    cases nt with
    | none => exact hstep
    | some u => exact outExt_trans hstep (outExt_openWrapperTag u _)
  · rw [if_neg h1]
    exact outExt_refl s

lemma outExt_processBlock (ctx : GenCtx) :
    ∀ (fuel : Nat) (s : GenState), OutExt s (processBlock ctx fuel s) := by
  refine processBlock.induct ctx
    (fun fuel s => OutExt s (processBlock ctx fuel s))
    (fun depth fuel s => OutExt s (processBlocksAtDepth ctx depth fuel s))
    ?_ ?_ ?_ ?_ ?_ ?_ ?_ ?_ ?_
  · intro s
    rw [processBlock, if_pos rfl]
    exact outExt_refl s
  · intro fuel s hf hb
    rw [processBlock, if_neg hf, hb]
    exact outExt_refl s
  · intro fuel s hf block hb
    dsimp only
    intro nextBlock hnext hcond ih
    simp only [processBlock, hf, if_false, hb, hnext, hcond, if_true]
    refine outExt_trans (outExt_wrapperAdjust (getWrapperTag block.type) s) ?_
    refine outExt_trans (outExt_pushIndent _) ?_
    refine outExt_trans (outExt_writeStartTag block.type _) ?_
    refine outExt_trans (outExt_push _ (renderBlockContent ctx block)) ?_
    refine outExt_trans (outExt_push _ (S "\n")) ?_
    refine outExt_trans (outExt_stash _) ?_
    refine outExt_trans ih ?_
    exact outExt_finish block.type _ _
  · intro fuel s hf block hb
    dsimp only
    intro nextBlock hnext hcond
    simp only [processBlock, hf, if_false, hb, hnext, hcond]
    refine outExt_trans (outExt_wrapperAdjust (getWrapperTag block.type) s) ?_
    refine outExt_trans (outExt_pushIndent _) ?_
    refine outExt_trans (outExt_writeStartTag block.type _) ?_
    refine outExt_trans (outExt_push _ (renderBlockContent ctx block)) ?_
    exact outExt_trans (outExt_setCurrent _ _) (outExt_writeEndTag block.type _)
  · intro fuel s hf block hb
    dsimp only
    intro hnext
    simp only [processBlock, hf, if_false, hb, hnext]
    refine outExt_trans (outExt_wrapperAdjust (getWrapperTag block.type) s) ?_
    refine outExt_trans (outExt_pushIndent _) ?_
    refine outExt_trans (outExt_writeStartTag block.type _) ?_
    refine outExt_trans (outExt_push _ (renderBlockContent ctx block)) ?_
    exact outExt_trans (outExt_setCurrent _ _) (outExt_writeEndTag block.type _)
  · intro depth s
    rw [processBlocksAtDepth, if_pos rfl]
    exact outExt_closeWrapperTag s
  · intro fuel s hf nextBlock hb ih1 ih2
    rw [processBlocksAtDepth, if_neg hf, hb]
    show OutExt s (if nextBlock.depth = nextBlock.depth then
      processBlocksAtDepth ctx nextBlock.depth (fuel - 1) (processBlock ctx (fuel - 1) s)
      else closeWrapperTag s)
    rw [if_pos rfl]
    exact outExt_trans ih1 ih2
  · intro depth fuel s hf nextBlock hb hd
    rw [processBlocksAtDepth, if_neg hf, hb]
    show OutExt s (if nextBlock.depth = depth then
      processBlocksAtDepth ctx depth (fuel - 1) (processBlock ctx (fuel - 1) s)
      else closeWrapperTag s)
    rw [if_neg hd]
    exact outExt_closeWrapperTag s
  · intro depth fuel s hf hb
    rw [processBlocksAtDepth, if_neg hf, hb]
    exact outExt_closeWrapperTag s

lemma wrapperAdjust_frags (nt : Option String) (s : GenState)
    (h : s.wrapperTag ≠ nt) :
    (wrapperAdjust nt s).output
      = s.output ++ closeWrapperFrags s ++ openWrapperFrags nt s := by
  unfold wrapperAdjust closeWrapperFrags openWrapperFrags
  rw [if_pos h]
  cases hw : s.wrapperTag with
  | none =>
    cases nt with
    | none => simp [hw]
    | some u => simp [hw, openWrapperTag, pushIndent, push]
  | some w =>
    cases nt with
    | none => simp [hw, closeWrapperTag, pushIndent, push]
    | some u => simp [hw, closeWrapperTag, openWrapperTag, pushIndent, push]

lemma outExt_processBlocksAtDepth (ctx : GenCtx) (d : Nat) :
    ∀ (fuel : Nat) (s : GenState), OutExt s (processBlocksAtDepth ctx d fuel s) := by
  intro fuel
  induction fuel with
  | zero =>
    intro s
    rw [processBlocksAtDepth, if_pos rfl]
    exact outExt_closeWrapperTag s
  | succ n ih =>
    intro s
    rw [processBlocksAtDepth, if_neg (Nat.succ_ne_zero n)]
    cases hb : ctx.blocks[s.currentBlock]? with
    | none => exact outExt_closeWrapperTag s
    | some b =>
      show OutExt s (if b.depth = d then
        processBlocksAtDepth ctx d (n + 1 - 1) (processBlock ctx (n + 1 - 1) s)
        else closeWrapperTag s)
      by_cases hd : b.depth = d
      · rw [if_pos hd]
        simp only [Nat.add_sub_cancel]
        exact outExt_trans (outExt_processBlock ctx n s) (ih _)
      · rw [if_neg hd]
        exact outExt_closeWrapperTag s

/-- `processBlock` performs the wrapper adjustment first: its whole output
is the adjusted output followed by material pushed afterwards. -/
lemma outExt_adjust_processBlock (ctx : GenCtx) (fuel : Nat) (s : GenState)
    (block : ContentBlock) (hf : fuel ≠ 0)
    (hb : ctx.blocks[s.currentBlock]? = some block) :
    OutExt (wrapperAdjust (getWrapperTag block.type) s)
      (processBlock ctx fuel s) := by
  rw [processBlock, if_neg hf, hb]
  dsimp only
  cases hn : ctx.blocks[(push (writeStartTag block.type
      (pushIndent (wrapperAdjust (getWrapperTag block.type) s)))
      (renderBlockContent ctx block)).currentBlock + 1]? with
  | none =>
    exact outExt_trans (outExt_pushIndent _)
      (outExt_trans (outExt_writeStartTag block.type _)
        (outExt_trans (outExt_push _ (renderBlockContent ctx block))
          (outExt_trans (outExt_setCurrent _ _) (outExt_writeEndTag block.type _))))
  | some nb =>
    dsimp only
    by_cases hc : (canHaveDepth block.type && (nb.depth == block.depth + 1)) = true
    · rw [if_pos hc]
      exact outExt_trans (outExt_pushIndent _)
        (outExt_trans (outExt_writeStartTag block.type _)
          (outExt_trans (outExt_push _ (renderBlockContent ctx block))
            (outExt_trans (outExt_push _ (S "\n"))
              (outExt_trans (outExt_stash _)
                (outExt_trans (outExt_processBlocksAtDepth ctx nb.depth (fuel - 1) _)
                  (outExt_finish block.type _ _))))))
    · rw [if_neg hc]
      exact outExt_trans (outExt_pushIndent _)
        (outExt_trans (outExt_writeStartTag block.type _)
          (outExt_trans (outExt_push _ (renderBlockContent ctx block))
            (outExt_trans (outExt_setCurrent _ _) (outExt_writeEndTag block.type _))))

/-- C6: wrapper discipline of the generator.  First conjunct: at the end
of `generate` (state `genFinalState`) no wrapper tag remains open.  Second
conjunct: every `<ul>`/`<ol>` wrapper opening fragment emitted into the
output has a matching closing fragment before the output is returned (the
net count of open-minus-close fragments is zero).  Third conjunct:
whenever the wrapper required by the block at the cursor differs from the
currently open one, the wrapper adjustment emits the close fragments of
the open wrapper (if any) first and then the open fragments of the new
one (if any), in that order and before any sibling content — and
`processBlock`'s whole output extends exactly this adjusted prefix. -/
theorem c6_wrapper_balance :
    (∀ ctx : GenCtx, (genFinalState ctx).wrapperTag = none) ∧
    (∀ (ctx : GenCtx) (t : String), t = "ul" ∨ t = "ol" →
      netOpen t (genFinalState ctx).output = 0) ∧
    (∀ (ctx : GenCtx) (fuel : Nat) (s : GenState) (block : ContentBlock),
      fuel ≠ 0 → ctx.blocks[s.currentBlock]? = some block →
      s.wrapperTag ≠ getWrapperTag block.type →
      (wrapperAdjust (getWrapperTag block.type) s).output
        = s.output ++ closeWrapperFrags s
            ++ openWrapperFrags (getWrapperTag block.type) s ∧
      ∃ rest, (processBlock ctx fuel s).output
        = s.output ++ closeWrapperFrags s
            ++ openWrapperFrags (getWrapperTag block.type) s ++ rest) := by
  refine ⟨fun ctx => closeWrapperTag_wrapperTag _, ?_, ?_⟩
  · intro ctx t ht
    have hloop := netRel_generateLoop ctx t ht (4 * ctx.blocks.length + 4)
      { output := [], currentBlock := 0, indentLevel := 0, wrapperTag := none }
    have hclose := netRel_closeWrapperTag t ht
      (generateLoop ctx (4 * ctx.blocks.length + 4)
        { output := [], currentBlock := 0, indentLevel := 0, wrapperTag := none })
    have htot := netRel_trans hloop hclose
    unfold NetRel at htot
    rw [show (genFinalState ctx).output
      = (closeWrapperTag (generateLoop ctx (4 * ctx.blocks.length + 4)
        { output := [], currentBlock := 0, indentLevel := 0,
          wrapperTag := none })).output from rfl]
    have hwt := closeWrapperTag_wrapperTag
      (generateLoop ctx (4 * ctx.blocks.length + 4)
        { output := [], currentBlock := 0, indentLevel := 0, wrapperTag := none })
    rw [hwt] at htot
    have hz : netOpen t ([] : List (List Char)) = 0 := by
      simp [netOpen, fragCount]
    have hwi : wrapInd t none = 0 := by simp [wrapInd]
    rw [hwi] at htot
    simp only [hz] at htot
    omega
  · intro ctx fuel s block hf hb hw
    have hadj := wrapperAdjust_frags (getWrapperTag block.type) s hw
    refine ⟨hadj, ?_⟩
    obtain ⟨rest, hrest⟩ := outExt_adjust_processBlock ctx fuel s block hf hb
    exact ⟨rest, by rw [hrest, hadj]⟩

def c6Block : ContentBlock :=
  ⟨"c6", BLOCK_TYPE.UNORDERED_LIST_ITEM, 0, S "x", [([], none)]⟩

def c6Ctx : GenCtx := ⟨[c6Block], fun _ => false, []⟩

/-- Witness for C6 at concrete inputs: a single unordered-list-item block;
the generated output balances its `<ul>` wrappers, and `processBlock` from
the initial state (no wrapper open, required wrapper `ul`) emits the
adjustment fragments first. -/
theorem c6_wrapper_balance_witness :
    netOpen "ul" (genFinalState c6Ctx).output = 0 ∧
    (∃ rest, (processBlock c6Ctx 1 ⟨[], 0, 0, none⟩).output
      = ([] : List (List Char)) ++ closeWrapperFrags ⟨[], 0, 0, none⟩
          ++ openWrapperFrags (getWrapperTag c6Block.type) ⟨[], 0, 0, none⟩
          ++ rest) := by
  constructor
  · exact c6_wrapper_balance.2.1 c6Ctx "ul" (Or.inl rfl)
  · exact (c6_wrapper_balance.2.2 c6Ctx 1 ⟨[], 0, 0, none⟩ c6Block
      (by decide) rfl (by decide)).2

end StateToHTML
